import Mathlib

/-!
# Verification of the OpenAPI Schema query engine (`index.mjs`)

Shallow embedding of the query tools of `src/index.mjs`.  The loaded
OpenAPI document is a generic JS value tree (`JVal`); each tool is a
function from the document (plus its string arguments) to a tool result.
JS runtime faults (`TypeError` on property access of `null`/`undefined`,
spread of a non-iterable, calling `.some` on a non-array) are modelled by
`Except String`; a thrown error is `.error`.

Out-of-model collaborators, per the spec's interface boundary: the file
loader/YAML parser (the document is taken as a `JVal` argument), the YAML
renderer (`toYaml` is represented by the `ToolResult.yaml` constructor,
keeping the structure that would be rendered), and the regular-expression
engine (`new RegExp(pattern, "i")` is represented by an arbitrary
predicate `test : String → Bool`; a malformed pattern would throw before
any scanning, which is outside the scanned-document behaviour verified
here).

Modelling notes, applied consistently:
* JS `undefined` is `Option.none`; JS `null` is `JVal.null`.  Both are
  falsy and both make property access throw.
* `Object.entries`/`Object.keys` on numbers/booleans yield `[]`; on
  strings JS would yield character-index entries, which is approximated
  by `[]` (no verified claim exercises a string receiver there).
* Record fields built from possibly-`undefined` JS values (e.g. the
  endpoint record of `get-endpoint`) are stored as `JVal.null`; how the
  external renderer prints them is out of scope.
* `Array.prototype.toString`/string coercion (`jsToStr`) is one level
  deep for arrays; no verified claim depends on coercing nested arrays.
* Numbers are `Int` (no NaN/float behaviour is relevant to any claim).
-/

/-- Generic JS/YAML value tree: the shape `js-yaml` produces and every
tool of `index.mjs` navigates. -/
inductive JVal where
  | null : JVal
  | bool : Bool → JVal
  | num : Int → JVal
  | str : String → JVal
  | arr : List JVal → JVal
  | obj : List (String × JVal) → JVal
deriving Repr, Inhabited

namespace JVal

/-- JS truthiness of a defined value. -/
def truthy : JVal → Bool
  | .null => false
  | .bool b => b
  | .num n => n != 0
  | .str s => s != ""
  | .arr _ => true
  | .obj _ => true

end JVal

/-- Truthiness of a possibly-`undefined` JS value. -/
def truthyOpt : Option JVal → Bool
  | none => false
  | some v => v.truthy

/-- First-match association lookup: JS object property read (JS objects
have unique keys, so first-match agrees with the object semantics). -/
def lookupField : List (String × JVal) → String → Option JVal
  | [], _ => none
  | (k', v) :: rest, k => if k' = k then some v else lookupField rest k

/-- ASCII lower-casing, modelling JS `String.prototype.toLowerCase` on the
ASCII keys/arguments this server manipulates. -/
def jsLower (s : String) : String := String.mk (s.data.map Char.toLower)

/-- ASCII upper-casing, modelling JS `String.prototype.toUpperCase`. -/
def jsUpper (s : String) : String := String.mk (s.data.map Char.toUpper)

/-- Parse a canonical array-index string (digits, no leading zero except
`"0"`), for JS array indexing `arr[k]`. -/
def parseIndexAux : List Char → Nat → Option Nat
  | [], acc => some acc
  | c :: rest, acc =>
    if c.isDigit then parseIndexAux rest (acc * 10 + (c.toNat - 48)) else none

/-- Canonical numeric index of a string key, if any. -/
def parseIndex (s : String) : Option Nat :=
  match s.data with
  | [] => none
  | '0' :: rest => if rest.isEmpty then some 0 else none
  | cs => parseIndexAux cs 0

/-- JS property read `x[k]` / `x.k`: throws `TypeError` on `null` or
`undefined` receivers, looks up object fields, indexes arrays, and yields
`undefined` on other primitives. -/
def jsGet : Option JVal → String → Except String (Option JVal)
  | none, k => .error ("TypeError: cannot read " ++ k ++ " of undefined")
  | some .null, k => .error ("TypeError: cannot read " ++ k ++ " of null")
  | some (.obj fs), k => .ok (lookupField fs k)
  | some (.arr xs), k => .ok ((parseIndex k).bind fun i => xs.get? i)
  | some _, _ => .ok none

/-- JS optional-chaining read `x?.[k]`: like `jsGet` but `null`/`undefined`
receivers yield `undefined` instead of throwing. -/
def jsGetOpt : Option JVal → String → Option JVal
  | none, _ => none
  | some .null, _ => none
  | some (.obj fs), k => lookupField fs k
  | some (.arr xs), k => (parseIndex k).bind fun i => xs.get? i
  | some _, _ => none

/-- JS `Object.entries`: throws on `null`/`undefined`, returns own fields
of an object in insertion order, index entries of an array, and `[]` on
other primitives (string index entries approximated by `[]`). -/
def jsEntries : Option JVal → Except String (List (String × JVal))
  | none => .error "TypeError: Object.entries called on undefined"
  | some .null => .error "TypeError: Object.entries called on null"
  | some (.obj fs) => .ok fs
  | some (.arr xs) => .ok (xs.enum.map fun p => (toString p.1, p.2))
  | some _ => .ok []

/-- JS `Object.keys`. -/
def jsKeys (x : Option JVal) : Except String (List String) :=
  match jsEntries x with
  | .error e => .error e
  | .ok fs => .ok (fs.map Prod.fst)

/-- JS short-circuit `a || b` on values. -/
def jsOr (a b : Option JVal) : Option JVal := if truthyOpt a then a else b

/-- Truthiness of an optional string argument (JS: missing or `""` is
falsy). -/
def strTruthy : Option String → Bool
  | none => false
  | some s => s != ""

/-- Template-literal interpolation of a possibly-missing string argument
(JS renders `undefined` as `"undefined"`). -/
def strInterp : Option String → String
  | none => "undefined"
  | some s => s

/-- JS iteration (`[...x]`, `for..of`): arrays yield elements, strings
yield their characters, everything else throws `TypeError`. -/
def jsIter : Option JVal → Except String (List JVal)
  | some (.arr xs) => .ok xs
  | some (.str s) => .ok (s.data.map fun c => .str (String.mk [c]))
  | _ => .error "TypeError: value is not iterable"

/-- JS object property assignment `o[k] = v`: overwrite in place if the
key exists, else append (insertion order preserved). -/
def objSet (fs : List (String × JVal)) (k : String) (v : JVal) : List (String × JVal) :=
  if fs.any fun p => p.1 == k then
    fs.map fun p => if p.1 == k then (p.1, v) else p
  else fs ++ [(k, v)]

/-- Separator join, modelling JS `Array.prototype.join`. -/
def joinSep (sep : String) : List String → String
  | [] => ""
  | [s] => s
  | s :: rest => s ++ sep ++ joinSep sep rest

/-- Shallow JS string coercion of a value (atoms only). -/
def jsToStrAtom : JVal → String
  | .null => "null"
  | .bool b => if b then "true" else "false"
  | .num n => toString n
  | .str s => s
  | .arr _ => ""
  | .obj _ => "[object Object]"

/-- JS string coercion; arrays join their elements' atom coercions with
`","` (one level deep, see the modelling notes). -/
def jsToStr : JVal → String
  | .arr xs => joinSep "," (xs.map jsToStrAtom)
  | v => jsToStrAtom v

/-- Template-literal / coercion rendering of a possibly-`undefined`
value. -/
def jsToStrOpt : Option JVal → String
  | none => "undefined"
  | some v => jsToStr v

/-- JS `typeof x === "object"` (true for objects, arrays and `null`). -/
def jsTypeofObject : JVal → Bool
  | .obj _ => true
  | .arr _ => true
  | .null => true
  | _ => false

/-- A tool's reply: either a structure handed to the external YAML
renderer (`toYaml`) or a literal diagnostic sentence. -/
inductive ToolResult where
  | yaml : JVal → ToolResult
  | text : String → ToolResult
deriving Repr, Inhabited

/-- Error-propagating sequencing (the implicit control flow of the JS
statements: a thrown `TypeError` aborts the handler). -/
def ebind {α β : Type} (x : Except String α) (f : α → Except String β) : Except String β :=
  match x with
  | .error e => .error e
  | .ok a => f a

/-- Error-propagating left fold over a list (JS `for..of` accumulation). -/
def efoldl {α β : Type} (f : β → α → Except String β) : List α → β → Except String β
  | [], acc => .ok acc
  | x :: rest, acc => ebind (f acc x) fun acc' => efoldl f rest acc'

/-- The fixed HTTP-method list of `index.mjs` (lines 71 and 593). -/
def methodSet : List String := ["get", "post", "put", "delete", "patch", "options", "head"]

/-! ## `list-endpoints` (lines 60–93) -/

/-- `operation.summary || "No summary"` (line 80). -/
def summaryEntry (operation : Option JVal) : Except String JVal :=
  ebind (jsGet operation "summary") fun s =>
    .ok ((jsOr s (some (.str "No summary"))).getD (.str "No summary"))

/-- The per-path method map of `list-endpoints` (lines 70–81): filter the
Path Item keys to the fixed method set (case-insensitively), then map each
upper-cased method to the operation's summary. -/
def listEndpointsMethods (pathItem : JVal) : Except String (List (String × JVal)) :=
  ebind (jsKeys (some pathItem)) fun keys =>
    let methods := keys.filter fun k => methodSet.contains (jsLower k)
    efoldl (fun acc m =>
      ebind (jsGet (some pathItem) m) fun operation =>
      ebind (summaryEntry operation) fun s =>
      .ok (objSet acc (jsUpper m) s)) methods []

/-- `list-endpoints` (lines 64–92). -/
def listEndpoints (doc : JVal) : Except String ToolResult :=
  ebind (jsGet (some doc) "paths") fun paths =>
  ebind (jsEntries (jsOr paths (some (.obj [])))) fun pathEntries =>
  ebind (efoldl (fun acc pv =>
      ebind (listEndpointsMethods pv.2) fun ms =>
      .ok (objSet acc pv.1 (.obj ms))) pathEntries []) fun pathMap =>
  .ok (.yaml (.obj pathMap))

/-! ## `get-endpoint` (lines 96–139) -/

/-- The flattened endpoint record of `get-endpoint` (lines 117–128);
`undefined` fields are stored as `null` (see modelling notes). -/
def endpointRecord (path method : String) (operation : Option JVal) : Except String JVal :=
  ebind (jsGet operation "summary") fun summary =>
  ebind (jsGet operation "description") fun description =>
  ebind (jsGet operation "tags") fun tags =>
  ebind (jsGet operation "parameters") fun parameters =>
  ebind (jsGet operation "requestBody") fun requestBody =>
  ebind (jsGet operation "responses") fun responses =>
  ebind (jsGet operation "security") fun security =>
  ebind (jsGet operation "deprecated") fun deprecated =>
  .ok (.obj [("path", .str path), ("method", .str (jsUpper method)),
    ("summary", summary.getD .null), ("description", description.getD .null),
    ("tags", tags.getD .null), ("parameters", parameters.getD .null),
    ("requestBody", requestBody.getD .null), ("responses", responses.getD .null),
    ("security", security.getD .null), ("deprecated", deprecated.getD .null)])

/-- `get-endpoint` (lines 104–138).  The operation lookup (line 111) is
`pathItem[method.toLowerCase()]`. -/
def getEndpoint (doc : JVal) (path method : String) : Except String ToolResult :=
  ebind (jsGet (some doc) "paths") fun paths =>
  let pathItem := jsGetOpt paths path
  if !truthyOpt pathItem then .ok (.text ("Path " ++ path ++ " not found"))
  else
    ebind (jsGet pathItem (jsLower method)) fun operation =>
    if !truthyOpt operation then
      .ok (.text ("Method " ++ method ++ " not found for path " ++ path))
    else ebind (endpointRecord path method operation) fun r => .ok (.yaml r)

/-! ## `get-request-body` (lines 142–176) -/

/-- `get-request-body` (lines 150–175). -/
def getRequestBody (doc : JVal) (path method : String) : Except String ToolResult :=
  ebind (jsGet (some doc) "paths") fun paths =>
  let pathItem := jsGetOpt paths path
  if !truthyOpt pathItem then .ok (.text ("Path " ++ path ++ " not found"))
  else
    ebind (jsGet pathItem (jsLower method)) fun operation =>
    if !truthyOpt operation then
      .ok (.text ("Method " ++ method ++ " not found for path " ++ path))
    else
      ebind (jsGet operation "requestBody") fun requestBody =>
      if !truthyOpt requestBody then
        .ok (.text ("No request body defined for " ++ method ++ " " ++ path))
      else .ok (.yaml (requestBody.getD .null))

/-! ## `get-response-schema` (lines 179–226) -/

/-- `get-response-schema` (lines 188–225).  Line 205 is
`responses[statusCode] || responses.default`; `responses.default` is
evaluated here unconditionally, which is observationally identical since
`responses` is truthy (hence non-null) at that point and property reads
are effect-free. -/
def getResponseSchema (doc : JVal) (path method statusCode : String) : Except String ToolResult :=
  ebind (jsGet (some doc) "paths") fun paths =>
  let pathItem := jsGetOpt paths path
  if !truthyOpt pathItem then .ok (.text ("Path " ++ path ++ " not found"))
  else
    ebind (jsGet pathItem (jsLower method)) fun operation =>
    if !truthyOpt operation then
      .ok (.text ("Method " ++ method ++ " not found for path " ++ path))
    else
      ebind (jsGet operation "responses") fun responses =>
      if !truthyOpt responses then
        .ok (.text ("No responses defined for " ++ method ++ " " ++ path))
      else
        ebind (jsGet responses statusCode) fun r1 =>
        ebind (jsGet responses "default") fun rdef =>
        let response := jsOr r1 rdef
        if !truthyOpt response then
          ebind (jsKeys responses) fun keys =>
          .ok (.text ("No response for status code " ++ statusCode ++
            " (or default) found for " ++ method ++ " " ++ path ++
            ".\nAvailable status codes: " ++ joinSep ", " keys))
        else .ok (.yaml (response.getD .null))

/-! ## `get-path-parameters` (lines 229–274) -/

/-- `get-path-parameters` (lines 237–273).  `method` is optional and JS
considers an empty string falsy, hence `strTruthy`. -/
def getPathParameters (doc : JVal) (path : String) (method : Option String) :
    Except String ToolResult :=
  ebind (jsGet (some doc) "paths") fun paths =>
  let pathItem := jsGetOpt paths path
  if !truthyOpt pathItem then .ok (.text ("Path " ++ path ++ " not found"))
  else
    ebind (jsGet pathItem "parameters") fun pparams =>
    ebind (jsIter (jsOr pparams (some (.arr [])))) fun base =>
    ebind (if strTruthy method then
        ebind (jsGet pathItem (jsLower (strInterp method))) fun operation =>
        if !truthyOpt operation then .ok base
        else
          ebind (jsGet operation "parameters") fun mparams =>
          if !truthyOpt mparams then .ok base
          else ebind (jsIter mparams) fun more => .ok (base ++ more)
      else .ok base) fun parameters =>
    if parameters.isEmpty then
      .ok (.text ("No parameters found for " ++
        (if strTruthy method then jsUpper (strInterp method) ++ " " else "") ++ path))
    else .ok (.yaml (.arr parameters))

/-! ## `list-components` (lines 277–302) -/

/-- `list-components` (lines 281–301). -/
def listComponents (doc : JVal) : Except String ToolResult :=
  ebind (jsGet (some doc) "components") fun componentsF =>
  let components := jsOr componentsF (some (.obj []))
  ebind (jsEntries components) fun catEntries =>
  ebind (efoldl (fun acc tv =>
      if tv.2.truthy && jsTypeofObject tv.2 then
        ebind (jsKeys (some tv.2)) fun ks =>
        .ok (objSet acc tv.1 (.arr (ks.map JVal.str)))
      else .ok acc) catEntries []) fun result =>
  .ok (.yaml (.obj result))

/-! ## `get-component` (lines 305–350) -/

/-- `get-component` (lines 313–349). -/
def getComponent (doc : JVal) (ctype cname : String) : Except String ToolResult :=
  ebind (jsGet (some doc) "components") fun componentsF =>
  let components := jsOr componentsF (some (.obj []))
  ebind (jsGet components ctype) fun componentType =>
  if !truthyOpt componentType then
    ebind (jsKeys components) fun ks =>
    .ok (.text ("Component type '" ++ ctype ++ "' not found. Available types: " ++
      joinSep ", " ks))
  else
    ebind (jsGet componentType cname) fun component =>
    if !truthyOpt component then
      ebind (jsKeys componentType) fun ks =>
      .ok (.text ("Component '" ++ cname ++ "' not found in '" ++ ctype ++
        "'. Available components: " ++ joinSep ", " ks))
    else .ok (.yaml (component.getD .null))

/-! ## `list-security-schemes` (lines 353–385) -/

/-- Strict string comparison `x === "s"` on a JS value. -/
def isStrVal (x : Option JVal) (s : String) : Bool :=
  match x with
  | some (.str t) => t == s
  | _ => false

/-- The per-scheme summary object of `list-security-schemes` (lines
363–369).  Type-specific property reads are effect-free on the non-null
scheme, so reading them unconditionally is observationally identical to
the conditional spreads of the source. -/
def securitySchemeSummary (scheme : JVal) : Except String JVal :=
  ebind (jsGet (some scheme) "type") fun ty =>
  ebind (jsGet (some scheme) "description") fun descr =>
  ebind (jsGet (some scheme) "flows") fun flows =>
  ebind (jsGet (some scheme) "in") fun inField =>
  ebind (jsGet (some scheme) "name") fun nameField =>
  ebind (jsGet (some scheme) "scheme") fun schemeField =>
  ebind (jsKeys (jsOr flows (some (.obj [])))) fun flowKeys =>
  .ok (.obj ([("type", ty.getD .null), ("description", descr.getD .null)] ++
    (if isStrVal ty "oauth2" then [("flows", .arr (flowKeys.map JVal.str))] else []) ++
    (if isStrVal ty "apiKey" then
      [("in", inField.getD .null), ("name", nameField.getD .null)] else []) ++
    (if isStrVal ty "http" then [("scheme", schemeField.getD .null)] else [])))

/-- `list-security-schemes` (lines 357–384). -/
def listSecuritySchemes (doc : JVal) : Except String ToolResult :=
  ebind (jsGet (some doc) "components") fun componentsF =>
  let schemes := jsOr (jsGetOpt componentsF "securitySchemes") (some (.obj []))
  ebind (jsEntries schemes) fun schemeEntries =>
  ebind (efoldl (fun acc ns =>
      ebind (securitySchemeSummary ns.2) fun summ =>
      .ok (objSet acc ns.1 summ)) schemeEntries []) fun result =>
  if result.isEmpty then .ok (.text "No security schemes defined in this API")
  else .ok (.yaml (.obj result))

/-! ## `get-examples` (lines 388–564) -/

/-- The three modes of `get-examples` (`z.enum` on line 393). -/
inductive ExampleType where
  | request
  | response
  | component
deriving Repr, DecidableEq

/-- One step of the media-type example accumulation shared by the request
mode (lines 430–437) and the response mode (lines 495–502): per content
node, a truthy `examples` map is used verbatim, else a truthy `example`
value is wrapped as `{default: {value: example}}`, else nothing is
contributed. -/
def mediaStep (acc : List (String × JVal)) (cv : String × JVal) :
    Except String (List (String × JVal)) :=
  ebind (jsGet (some cv.2) "examples") fun exs =>
  if truthyOpt exs then .ok (objSet acc cv.1 (exs.getD .null))
  else
    ebind (jsGet (some cv.2) "example") fun ex =>
    if truthyOpt ex then
      .ok (objSet acc cv.1 (.obj [("default", .obj [("value", ex.getD .null)])]))
    else .ok acc

/-- The media-type example accumulation loop of `get-examples`
(request mode lines 430–437, response mode lines 495–502). -/
def mediaExamples (entries : List (String × JVal)) :
    Except String (List (String × JVal)) :=
  efoldl mediaStep entries []

/-- Response-mode continuation of `get-examples` after the response object
has been selected (lines 480–522); `availableKeys` is
`Object.keys(operation.responses)`, read lazily in the source but
effect-free. -/
def responseExamplesFor (m p : String) (statusCode : Option String)
    (availableKeys : List String) (responseObj : Option JVal) : Except String ToolResult :=
  if !truthyOpt responseObj then
    .ok (.text ("Response " ++ strInterp statusCode ++ " not found for " ++ jsUpper m ++
      " " ++ p ++ ". Available: " ++ joinSep ", " availableKeys))
  else
    ebind (jsGet responseObj "content") fun rcontent =>
    if !truthyOpt rcontent then .ok (.text "No content defined in response")
    else
      ebind (jsEntries rcontent) fun centries =>
      ebind (mediaExamples centries) fun examples =>
      if examples.isEmpty then
        .ok (.text ("No examples found for " ++ jsUpper m ++ " " ++ p ++ " response" ++
          (if strTruthy statusCode then " " ++ strInterp statusCode else "")))
      else .ok (.yaml (.obj examples))

/-- `get-examples` (lines 406–563).  In response mode with a falsy
`statusCode` the source picks `Object.values(operation.responses)[0]`
(lines 477–479), i.e. the first response entry in document order. -/
def getExamples (doc : JVal) (ty : ExampleType)
    (path method statusCode ctype cname : Option String) : Except String ToolResult :=
  match ty with
  | .request =>
    if !strTruthy path || !strTruthy method then
      .ok (.text "Path and method are required for request examples")
    else
      let p := strInterp path
      let m := strInterp method
      ebind (jsGet (some doc) "paths") fun paths =>
      let operation := jsGetOpt (jsGetOpt paths p) (jsLower m)
      if !truthyOpt operation then
        .ok (.text ("Operation " ++ jsUpper m ++ " " ++ p ++ " not found"))
      else
        ebind (jsGet operation "requestBody") fun requestBody =>
        let rcontent := jsGetOpt requestBody "content"
        if !truthyOpt rcontent then
          .ok (.text ("No request body defined for " ++ jsUpper m ++ " " ++ p))
        else
          ebind (jsEntries rcontent) fun centries =>
          ebind (mediaExamples centries) fun examples =>
          if examples.isEmpty then
            .ok (.text ("No examples found for " ++ jsUpper m ++ " " ++ p ++ " request"))
          else .ok (.yaml (.obj examples))
  | .response =>
    if !strTruthy path || !strTruthy method then
      .ok (.text "Path and method are required for response examples")
    else
      let p := strInterp path
      let m := strInterp method
      ebind (jsGet (some doc) "paths") fun paths =>
      let operation := jsGetOpt (jsGetOpt paths p) (jsLower m)
      if !truthyOpt operation then
        .ok (.text ("Operation " ++ jsUpper m ++ " " ++ p ++ " not found"))
      else
        ebind (jsGet operation "responses") fun responses =>
        if !truthyOpt responses then
          .ok (.text ("No responses defined for " ++ jsUpper m ++ " " ++ p))
        else
          ebind (jsKeys responses) fun keys =>
          ebind (if strTruthy statusCode then jsGet responses (strInterp statusCode)
            else ebind (jsEntries responses) fun es => .ok (es.head?.map Prod.snd))
            fun responseObj =>
          responseExamplesFor m p statusCode keys responseObj
  | .component =>
    if !strTruthy ctype || !strTruthy cname then
      .ok (.text "Component type and name are required for component examples")
    else
      let ct := strInterp ctype
      let cn := strInterp cname
      ebind (jsGet (some doc) "components") fun comps =>
      let component := jsGetOpt (jsGetOpt comps ct) cn
      if !truthyOpt component then
        .ok (.text ("Component " ++ ct ++ "." ++ cn ++ " not found"))
      else
        ebind (jsGet component "examples") fun exs =>
        ebind (jsGet component "example") fun ex =>
        let examples := if truthyOpt exs then exs
          else if truthyOpt ex then some (.obj [("default", ex.getD .null)])
          else some .null
        if !truthyOpt examples then
          .ok (.text ("No examples found for component " ++ ct ++ "." ++ cn))
        else .ok (.yaml (examples.getD .null))

/-! ## `search-schema` (lines 567–653)

The compiled case-insensitive regex is represented by an arbitrary
predicate `test : String → Bool`; `pattern` is kept for the diagnostic
sentence.  All `||` short-circuits of the source are preserved, since the
skipped operand can throw. -/

/-- Parameter scan of one operation (lines 606–610). -/
def searchParams (test : String → Bool) (m p : String) (params : List JVal) :
    Except String (List String) :=
  efoldl (fun acc param =>
    ebind (jsGet (some param) "name") fun n =>
    let descriptor := jsToStrOpt n ++ " (" ++ jsUpper m ++ " " ++ p ++ ")"
    if test (jsToStrOpt (jsOr n (some (.str "")))) then .ok (acc ++ [descriptor])
    else
      ebind (jsGet (some param) "description") fun d =>
      if test (jsToStrOpt (jsOr d (some (.str "")))) then .ok (acc ++ [descriptor])
      else .ok acc) params []

/-- Method scan of one Path Item (lines 593–611), accumulating
`(operations, parameters)` descriptors. -/
def searchMethods (test : String → Bool) (p : String) (pathItem : Option JVal)
    (init : List String × List String) : Except String (List String × List String) :=
  efoldl (fun acc m =>
    ebind (jsGet pathItem m) fun operation =>
    if !truthyOpt operation then .ok acc
    else
      ebind (jsGet operation "summary") fun s =>
      ebind (if test (jsToStrOpt (jsOr s (some (.str "")))) then .ok true
        else
          ebind (jsGet operation "description") fun d =>
          if test (jsToStrOpt (jsOr d (some (.str "")))) then .ok true
          else
            ebind (jsGet operation "tags") fun tags =>
            match tags with
            | some (.arr xs) => .ok (xs.any fun t => test (jsToStr t))
            | some v =>
              if v.truthy then .error "TypeError: operation.tags.some is not a function"
              else .ok false
            | none => .ok false) fun opMatch =>
      let opsAcc := if opMatch then acc.1 ++ [jsUpper m ++ " " ++ p] else acc.1
      ebind (jsGet operation "parameters") fun paramsF =>
      ebind (jsIter (jsOr paramsF (some (.arr [])))) fun params =>
      ebind (searchParams test m p params) fun prs =>
      .ok (opsAcc, acc.2 ++ prs)) methodSet init

/-- Path loop of the search (lines 586–612), accumulating
`(paths, operations, parameters)`. -/
def searchPathsScan (test : String → Bool) (pathsV : Option JVal) (pathKeys : List String) :
    Except String (List String × List String × List String) :=
  efoldl (fun acc p =>
    let pacc := if test p then acc.1 ++ [p] else acc.1
    ebind (jsGet pathsV p) fun pathItem =>
    ebind (searchMethods test p pathItem (acc.2.1, acc.2.2)) fun ms =>
    .ok (pacc, ms.1, ms.2)) pathKeys ([], [], [])

/-- The shared match test of the component scan (line 620) and the
security-scheme scan (line 628): `name` matches, or (short-circuited, so
the read can still throw on a `null` value) `description || ""` matches. -/
def compMatch (test : String → Bool) (n : String) (c : JVal) : Except String Bool :=
  if test n then .ok true
  else
    ebind (jsGet (some c) "description") fun d =>
    .ok (test (jsToStrOpt (jsOr d (some (.str "")))))

/-- One component-category scan (lines 619–624). -/
def searchCompCat (test : String → Bool) (tyName : String)
    (entries : List (String × JVal)) (init : List String) : Except String (List String) :=
  efoldl (fun acc nc =>
    ebind (compMatch test nc.1 nc.2) fun b =>
    .ok (if b then acc ++ [tyName ++ "." ++ nc.1] else acc)) entries init

/-- Security-scheme scan (lines 627–631), accumulating from `init`
(`search-schema` starts it from the empty list). -/
def searchSecSchemes (test : String → Bool) (entries : List (String × JVal))
    (init : List String) : Except String (List String) :=
  efoldl (fun acc ns =>
    ebind (compMatch test ns.1 ns.2) fun b =>
    .ok (if b then acc ++ [ns.1] else acc)) entries init

/-- The component loop of the search (lines 616–624): every component
category whose value passes the `typeof` guard is scanned, accumulating
from `init`. -/
def searchAllCompCatsFrom (test : String → Bool) (catEntries : List (String × JVal))
    (init : List String) : Except String (List String) :=
  efoldl (fun acc tv =>
    if tv.2.truthy && jsTypeofObject tv.2 then
      ebind (jsEntries (some tv.2)) fun es =>
      searchCompCat test tv.1 es acc
    else .ok acc) catEntries init

/-- The five match categories of `search-schema`, in the declaration order
of the `results` object (lines 577–583): paths, operations, components,
parameters, securitySchemes. -/
def searchCategories (test : String → Bool) (doc : JVal) :
    Except String (List String × List String × List String × List String × List String) :=
  ebind (jsGet (some doc) "paths") fun pathsF =>
  ebind (jsKeys (jsOr pathsF (some (.obj [])))) fun pathKeys =>
  ebind (searchPathsScan test pathsF pathKeys) fun pop =>
  ebind (jsGet (some doc) "components") fun componentsF =>
  let components := jsOr componentsF (some (.obj []))
  ebind (jsEntries components) fun catEntries =>
  ebind (searchAllCompCatsFrom test catEntries []) fun comps =>
  ebind (jsGet components "securitySchemes") fun ssF =>
  ebind (jsEntries (jsOr ssF (some (.obj [])))) fun ssEntries =>
  ebind (searchSecSchemes test ssEntries []) fun ss =>
  .ok (pop.1, pop.2.1, comps, pop.2.2, ss)

/-- Result shaping of `search-schema` (lines 633–651): drop the empty
categories (deletion preserves declaration order); if everything is empty
return the single diagnostic sentence naming the pattern. -/
def assembleSearch (pattern : String)
    (cats : List String × List String × List String × List String × List String) :
    ToolResult :=
  let pairs := [("paths", cats.1), ("operations", cats.2.1), ("components", cats.2.2.1),
    ("parameters", cats.2.2.2.1), ("securitySchemes", cats.2.2.2.2)]
  let nonEmpty := pairs.filter fun c => !c.2.isEmpty
  if nonEmpty.isEmpty then
    .text ("No matches found for \"" ++ pattern ++ "\"")
  else .yaml (.obj (nonEmpty.map fun c => (c.1, .arr (c.2.map JVal.str))))

/-- `search-schema` (lines 574–652). -/
def searchSchema (test : String → Bool) (pattern : String) (doc : JVal) :
    Except String ToolResult :=
  ebind (searchCategories test doc) fun cats => .ok (assembleSearch pattern cats)

/-! ## Helper lemmas -/

theorem ebind_ok {α β : Type} (a : α) (f : α → Except String β) : ebind (.ok a) f = f a := rfl

theorem ebind_error {α β : Type} (e : String) (f : α → Except String β) :
    ebind (.error e) f = .error e := rfl

theorem jsOr_obj (fs : List (String × JVal)) (b : Option JVal) :
    jsOr (some (.obj fs)) b = some (.obj fs) := rfl

theorem truthyOpt_some (v : JVal) : truthyOpt (some v) = v.truthy := rfl

theorem truthyOpt_obj (fs : List (String × JVal)) : truthyOpt (some (.obj fs)) = true := rfl

theorem truthyOpt_arr (xs : List JVal) : truthyOpt (some (.arr xs)) = true := rfl

theorem truthyOpt_none : truthyOpt none = false := rfl

theorem truthy_obj (fs : List (String × JVal)) : (JVal.obj fs).truthy = true := rfl

theorem truthy_null : JVal.null.truthy = false := rfl

theorem truthy_arr (xs : List JVal) : (JVal.arr xs).truthy = true := rfl

/-- Two strings with distinct head characters stay distinct under any
suffixes. -/
theorem ne_of_head_ne (s t a b : String) (c d : Char) (rest1 rest2 : List Char)
    (hs : s.data = c :: rest1) (ht : t.data = d :: rest2) (hcd : c ≠ d) :
    (s ++ a) ≠ (t ++ b) := by
  intro h
  have h2 := congrArg String.data h
  rw [String.data_append, String.data_append, hs, ht] at h2
  simp only [List.cons_append, List.cons.injEq] at h2
  exact hcd h2.1

/-! ## C4: `get-response-schema` default fallback and diagnostic -/

/-- C4: with `(path, method)` resolving to an operation whose `responses`
map is `rs`: (a) if the requested status is not (truthily) present but a
`default` response node exists, the result is exactly that `default`
node; (b) if neither is present, the result is the diagnostic listing
exactly the keys of `rs`, comma-joined, in document order. -/
theorem getResponseSchema_default_law
    (dfs pfs ofs rs : List (String × JVal)) (path method statusCode : String)
    (hpi : jsGetOpt (lookupField dfs "paths") path = some (.obj pfs))
    (hop : lookupField pfs (jsLower method) = some (.obj ofs))
    (hrs : lookupField ofs "responses" = some (.obj rs)) :
    (∀ d : JVal, truthyOpt (lookupField rs statusCode) = false →
      lookupField rs "default" = some d → d.truthy = true →
      getResponseSchema (.obj dfs) path method statusCode = .ok (.yaml d)) ∧
    (truthyOpt (lookupField rs statusCode) = false →
      truthyOpt (lookupField rs "default") = false →
      getResponseSchema (.obj dfs) path method statusCode =
        .ok (.text ("No response for status code " ++ statusCode ++
          " (or default) found for " ++ method ++ " " ++ path ++
          ".\nAvailable status codes: " ++ joinSep ", " (rs.map Prod.fst)))) := by
  constructor
  · intro d hsc hd hdt
    simp [getResponseSchema, jsGet, ebind, jsOr, jsKeys, jsEntries,
      hpi, hop, hrs, hsc, hd, hdt, truthyOpt_obj, truthyOpt_some, truthy_obj]
  · intro hsc hdef
    simp [getResponseSchema, jsGet, ebind, jsOr, jsKeys, jsEntries,
      hpi, hop, hrs, hsc, hdef, truthyOpt_obj, truthyOpt_some, truthy_obj]

/-- Responses map of the C4 witness document with a `default` entry. -/
def c4rs1 : List (String × JVal) :=
  [("200", .obj [("description", .str "ok")]), ("default", .obj [("description", .str "dflt")])]

/-- Responses map of the C4 witness document without a `default` entry. -/
def c4rs2 : List (String × JVal) := [("200", .obj [("description", .str "ok")])]

/-- Operation fields for the C4 witnesses. -/
def c4ofs (rs : List (String × JVal)) : List (String × JVal) := [("responses", .obj rs)]

/-- Path Item fields for the C4 witnesses. -/
def c4pfs (rs : List (String × JVal)) : List (String × JVal) := [("get", .obj (c4ofs rs))]

/-- Document fields for the C4 witnesses. -/
def c4dfs (rs : List (String × JVal)) : List (String × JVal) :=
  [("paths", .obj [("/a", .obj (c4pfs rs))])]

/-- Witness for C4 at concrete documents: status `"404"` absent, `default`
present, yields the default node; with neither, the diagnostic lists the
defined keys `200` in document order. -/
theorem getResponseSchema_default_law_witness :
    getResponseSchema (.obj (c4dfs c4rs1)) "/a" "get" "404" =
      .ok (.yaml (.obj [("description", .str "dflt")])) ∧
    getResponseSchema (.obj (c4dfs c4rs2)) "/a" "get" "404" =
      .ok (.text "No response for status code 404 (or default) found for get /a.\nAvailable status codes: 200") :=
  ⟨(getResponseSchema_default_law (c4dfs c4rs1) (c4pfs c4rs1) (c4ofs c4rs1) c4rs1
      "/a" "get" "404" rfl rfl rfl).1 (.obj [("description", .str "dflt")]) rfl rfl rfl,
   ((getResponseSchema_default_law (c4dfs c4rs2) (c4pfs c4rs2) (c4ofs c4rs2) c4rs2
      "/a" "get" "404" rfl rfl rfl).2 rfl rfl).trans rfl⟩

/-! ## C5: `get-path-parameters` concatenation law -/

/-- C5: with the Path Item's parameter list `pps` and the method-level
parameter list `mps`, the result is the plain concatenation
`pps ++ mps` (Path-Item entries first, duplicates retained, nothing
merged), rendered when non-empty and a diagnostic when empty; its length
is the sum of the two counts and its prefix of length `pps.length` is
`pps`. -/
theorem getPathParameters_concat_law
    (dfs pfs ofs : List (String × JVal)) (pps mps : List JVal) (path m : String)
    (hm : m ≠ "")
    (hpi : jsGetOpt (lookupField dfs "paths") path = some (.obj pfs))
    (hbase : jsIter (jsOr (lookupField pfs "parameters") (some (.arr []))) = .ok pps)
    (hop : lookupField pfs (jsLower m) = some (.obj ofs))
    (hmp : lookupField ofs "parameters" = some (.arr mps)) :
    getPathParameters (.obj dfs) path (some m) =
      (if (pps ++ mps).isEmpty then
        .ok (.text ("No parameters found for " ++ jsUpper m ++ " " ++ path))
      else .ok (.yaml (.arr (pps ++ mps)))) ∧
    (pps ++ mps).length = pps.length + mps.length ∧
    (pps ++ mps).take pps.length = pps := by
  refine ⟨?_, List.length_append _ _, List.take_left _ _⟩
  have hmt : strTruthy (some m) = true := by
    simp [strTruthy]; exact hm
  have hiter : jsIter (some (.arr mps)) = .ok mps := rfl
  simp [getPathParameters, jsGet, ebind, hpi, hbase, hop, hmp, hmt, hiter,
    truthyOpt_obj, truthyOpt_arr, truthy_obj, truthy_arr, strInterp, String.append_assoc]

/-- Witness for C5 at a concrete document: one Path-Item-level parameter
and two method-level parameters (one a duplicate by name) concatenate in
order, length `1 + 2`, duplicates retained. -/
theorem getPathParameters_concat_law_witness :
    getPathParameters (.obj [("paths", .obj [("/a", .obj [
        ("parameters", .arr [.obj [("name", .str "id")]]),
        ("get", .obj [("parameters", .arr [.obj [("name", .str "id")],
          .obj [("name", .str "limit")]])])])])]) "/a" (some "get") =
      .ok (.yaml (.arr [.obj [("name", .str "id")], .obj [("name", .str "id")],
        .obj [("name", .str "limit")]])) :=
  ((getPathParameters_concat_law
      [("paths", .obj [("/a", .obj [
        ("parameters", .arr [.obj [("name", .str "id")]]),
        ("get", .obj [("parameters", .arr [.obj [("name", .str "id")],
          .obj [("name", .str "limit")]])])])])]
      [("parameters", .arr [.obj [("name", .str "id")]]),
        ("get", .obj [("parameters", .arr [.obj [("name", .str "id")],
          .obj [("name", .str "limit")]])])]
      [("parameters", .arr [.obj [("name", .str "id")],
          .obj [("name", .str "limit")]])]
      [.obj [("name", .str "id")]]
      [.obj [("name", .str "id")], .obj [("name", .str "limit")]]
      "/a" "get" (by decide) rfl rfl rfl rfl).1).trans rfl

/-! ## C10: `get-path-parameters` with an unresolvable method -/

/-- C10: when the (truthy) `method` argument does not resolve to an
operation on the (present) path, `get-path-parameters` never produces the
`MethodNotFound` diagnostic: it returns the Path-Item-level parameters
alone, or, if there are none, the `No parameters found` diagnostic with
the unresolved method name upper-cased. -/
theorem getPathParameters_no_method_not_found
    (dfs pfs : List (String × JVal)) (pps : List JVal) (path m : String)
    (hm : m ≠ "")
    (hpi : jsGetOpt (lookupField dfs "paths") path = some (.obj pfs))
    (hbase : jsIter (jsOr (lookupField pfs "parameters") (some (.arr []))) = .ok pps)
    (hop : truthyOpt (lookupField pfs (jsLower m)) = false) :
    getPathParameters (.obj dfs) path (some m) =
      (if pps.isEmpty then
        .ok (.text ("No parameters found for " ++ jsUpper m ++ " " ++ path))
      else .ok (.yaml (.arr pps))) ∧
    getPathParameters (.obj dfs) path (some m) ≠
      .ok (.text ("Method " ++ m ++ " not found for path " ++ path)) := by
  have hmt : strTruthy (some m) = true := by
    simp [strTruthy]; exact hm
  have hres : getPathParameters (.obj dfs) path (some m) =
      (if pps.isEmpty then
        .ok (.text ("No parameters found for " ++ jsUpper m ++ " " ++ path))
      else .ok (.yaml (.arr pps))) := by
    simp [getPathParameters, jsGet, ebind, hpi, hbase, hop, hmt,
      truthyOpt_obj, truthy_obj, strInterp, String.append_assoc]
  refine ⟨hres, ?_⟩
  rw [hres]
  by_cases hemp : pps.isEmpty
  · rw [if_pos hemp]
    intro h
    simp only [Except.ok.injEq, ToolResult.text.injEq] at h
    rw [String.append_assoc, String.append_assoc, String.append_assoc,
      String.append_assoc] at h
    exact ne_of_head_ne _ _ _ _ 'N' 'M' _ _ rfl rfl (by decide) h
  · rw [if_neg hemp]
    intro h
    simp at h

/-- Witness for C10: a method name `"nosuch"` that resolves to nothing
still yields the path-level parameter list, and with no parameters at all
the diagnostic shows `NOSUCH` upper-cased; neither is `MethodNotFound`. -/
theorem getPathParameters_no_method_not_found_witness :
    getPathParameters (.obj [("paths", .obj [("/b", .obj [("get", .obj [])])])])
      "/b" (some "nosuch") = .ok (.text "No parameters found for NOSUCH /b") :=
  ((getPathParameters_no_method_not_found [("paths", .obj [("/b", .obj [("get", .obj [])])])]
      [("get", .obj [])] [] "/b" "nosuch" (by decide) rfl rfl rfl).1).trans rfl

theorem strTruthy_none : strTruthy none = false := rfl

/-! ## C8: response-mode `get-examples` picks the first response entry -/

/-- C8: with the operation resolved and a non-empty `responses` map whose
first entry (in document order) is `(k0, v0)`, `get-examples` in response
mode without a `statusCode` continues with exactly `v0`
(`Object.values(responses)[0]`), not a sorted pick and not `"200"`. -/
theorem getExamples_response_first_entry
    (dfs ofs rs rest : List (String × JVal)) (k0 : String) (v0 : JVal) (p m : String)
    (hp : p ≠ "") (hm : m ≠ "")
    (hopx : jsGetOpt (jsGetOpt (lookupField dfs "paths") p) (jsLower m) = some (.obj ofs))
    (hrs : lookupField ofs "responses" = some (.obj rs))
    (hhead : rs = (k0, v0) :: rest) :
    getExamples (.obj dfs) .response (some p) (some m) none none none =
      responseExamplesFor m p none (rs.map Prod.fst) (some v0) := by
  have hpt : strTruthy (some p) = true := by simp [strTruthy]; exact hp
  have hmt : strTruthy (some m) = true := by simp [strTruthy]; exact hm
  simp [getExamples, jsGet, ebind, jsKeys, jsEntries, hopx, hrs, hhead, hpt, hmt,
    strTruthy_none, truthyOpt_obj, truthy_obj, strInterp]

/-- Responses map of the C8 witness: first entry `404`, then `200`. -/
def c8rs : List (String × JVal) :=
  [("404", .obj [("content", .obj [("application/json", .obj [("example", .num 7)])])]),
   ("200", .obj [("content", .obj [("application/json", .obj [("example", .num 1)])])])]

/-- Operation fields of the C8 witness. -/
def c8ofs : List (String × JVal) := [("responses", .obj c8rs)]

/-- Document fields of the C8 witness. -/
def c8dfs : List (String × JVal) := [("paths", .obj [("/a", .obj [("get", .obj c8ofs)])])]

/-- Witness for C8: with responses listed as `404` then `200`, the example
returned is the `404` entry's (value `7`), i.e. the first entry in
document order, not `200`. -/
theorem getExamples_response_first_entry_witness :
    getExamples (.obj c8dfs) .response (some "/a") (some "get") none none none =
      .ok (.yaml (.obj [("application/json",
        .obj [("default", .obj [("value", .num 7)])])])) :=
  (getExamples_response_first_entry c8dfs c8ofs c8rs
      [("200", .obj [("content", .obj [("application/json", .obj [("example", .num 1)])])])]
      "404" (.obj [("content", .obj [("application/json", .obj [("example", .num 7)])])])
      "/a" "get" (by decide) (by decide) rfl rfl rfl).trans rfl

/-! ## Fold lemmas for the search scans -/

/-- A fold whose steps only append to the accumulator produces an
extension of its initial accumulator. -/
theorem efoldl_extends {β : Type} (f : List String → β → Except String (List String))
    (l : List β)
    (hf : ∀ acc x out, f acc x = .ok out → ∃ ex, out = acc ++ ex) :
    ∀ init out, efoldl f l init = .ok out → ∃ ex, out = init ++ ex := by
  induction l with
  | nil =>
    intro init out h
    refine ⟨[], ?_⟩
    have : init = out := by simpa [efoldl] using h
    simp [← this]
  | cons x rest ih =>
    intro init out h
    simp only [efoldl] at h
    cases hx : f init x with
    | error e => rw [hx] at h; simp [ebind] at h
    | ok acc' =>
      rw [hx] at h
      simp only [ebind] at h
      obtain ⟨e1, he1⟩ := hf init x acc' hx
      obtain ⟨e2, he2⟩ := ih acc' out h
      exact ⟨e1 ++ e2, by rw [he2, he1, List.append_assoc]⟩

/-- Each step of `searchCompCat` only appends. -/
theorem searchCompCat_step_extends (test : String → Bool) (tyName : String)
    (acc : List String) (nc : String × JVal) (out : List String)
    (h : (ebind (compMatch test nc.1 nc.2) fun b =>
      Except.ok (if b then acc ++ [tyName ++ "." ++ nc.1] else acc)) = .ok out) :
    ∃ ex, out = acc ++ ex := by
  cases hm : compMatch test nc.1 nc.2 with
  | error e => rw [hm] at h; simp [ebind] at h
  | ok b =>
    rw [hm] at h
    simp only [ebind, Except.ok.injEq] at h
    cases b with
    | true => exact ⟨[tyName ++ "." ++ nc.1], by simp [← h]⟩
    | false => exact ⟨[], by simp [← h]⟩

/-- `searchCompCat` extends its initial accumulator. -/
theorem searchCompCat_extends (test : String → Bool) (tyName : String)
    (entries : List (String × JVal)) (init out : List String)
    (h : searchCompCat test tyName entries init = .ok out) : ∃ ex, out = init ++ ex :=
  efoldl_extends _ entries
    (fun acc nc o ho => searchCompCat_step_extends test tyName acc nc o ho) init out h

/-- A matching `(name, component)` entry of a scanned category is reported
as `category.name` in the `searchCompCat` output. -/
theorem searchCompCat_mem (test : String → Bool) (tyName : String) (n : String) (c : JVal) :
    ∀ (entries : List (String × JVal)) (init out : List String), (n, c) ∈ entries →
      compMatch test n c = .ok true →
      searchCompCat test tyName entries init = .ok out → (tyName ++ "." ++ n) ∈ out := by
  intro entries
  induction entries with
  | nil => intro init out hmem; cases hmem
  | cons e rest ih =>
    intro init out hmem hmatch h
    simp only [searchCompCat, efoldl] at h
    rcases List.mem_cons.mp hmem with heq | hmem'
    · rw [← heq] at h
      rw [hmatch] at h
      simp only [ebind, if_pos rfl, if_true] at h
      obtain ⟨ex, hex⟩ := searchCompCat_extends test tyName rest
        (init ++ [tyName ++ "." ++ n]) out h
      rw [hex]
      exact List.mem_append_left _ (List.mem_append_right _ (List.mem_singleton.mpr rfl))
    · cases hx : (ebind (compMatch test e.1 e.2) fun b =>
          Except.ok (if b then init ++ [tyName ++ "." ++ e.1] else init)) with
      | error er => rw [hx] at h; simp [ebind] at h
      | ok acc' =>
        rw [hx] at h
        simp only [ebind] at h
        exact ih acc' out hmem' hmatch h

/-- Each step of the component-category loop only appends. -/
theorem searchAllCompCatsFrom_step_extends (test : String → Bool)
    (acc : List String) (tv : String × JVal) (out : List String)
    (h : (if tv.2.truthy && jsTypeofObject tv.2 then
        ebind (jsEntries (some tv.2)) fun es => searchCompCat test tv.1 es acc
      else .ok acc) = .ok out) :
    ∃ ex, out = acc ++ ex := by
  by_cases hg : (tv.2.truthy && jsTypeofObject tv.2 : Bool)
  · rw [if_pos hg] at h
    cases he : jsEntries (some tv.2) with
    | error e => rw [he] at h; simp [ebind] at h
    | ok es =>
      rw [he] at h
      simp only [ebind] at h
      exact searchCompCat_extends test tv.1 es acc out h
  · rw [if_neg hg] at h
    simp only [Except.ok.injEq] at h
    exact ⟨[], by simp [← h]⟩

/-- The component loop extends its accumulator. -/
theorem searchAllCompCatsFrom_extends (test : String → Bool)
    (cats : List (String × JVal)) (init out : List String)
    (h : searchAllCompCatsFrom test cats init = .ok out) : ∃ ex, out = init ++ ex :=
  efoldl_extends _ cats
    (fun acc tv o ho => searchAllCompCatsFrom_step_extends test acc tv o ho) init out h

/-- A matching component stored under a category that is an object is
reported as `category.name` by the whole component loop. -/
theorem searchAllCompCatsFrom_mem (test : String → Bool) (tyName n : String) (c : JVal)
    (SS : List (String × JVal)) :
    ∀ (cats : List (String × JVal)) (init out : List String),
      (tyName, .obj SS) ∈ cats → (n, c) ∈ SS → compMatch test n c = .ok true →
      searchAllCompCatsFrom test cats init = .ok out → (tyName ++ "." ++ n) ∈ out := by
  intro cats
  induction cats with
  | nil => intro init out hmem; cases hmem
  | cons tv rest ih =>
    intro init out hmem hss hmatch h
    simp only [searchAllCompCatsFrom, efoldl] at h
    rcases List.mem_cons.mp hmem with heq | hmem'
    · rw [← heq] at h
      simp only [truthy_obj, jsTypeofObject, Bool.and_self, if_true, jsEntries,
        ebind] at h
      cases hc : searchCompCat test tyName SS init with
      | error e => rw [hc] at h; simp [ebind] at h
      | ok acc' =>
        rw [hc] at h
        simp only [ebind] at h
        have hin : (tyName ++ "." ++ n) ∈ acc' :=
          searchCompCat_mem test tyName n c SS init acc' hss hmatch hc
        obtain ⟨ex, hex⟩ := searchAllCompCatsFrom_extends test rest acc' out h
        rw [hex]
        exact List.mem_append_left _ hin
    · cases hx : (if tv.2.truthy && jsTypeofObject tv.2 then
          ebind (jsEntries (some tv.2)) fun es => searchCompCat test tv.1 es init
        else .ok init) with
      | error er => rw [hx] at h; simp [ebind] at h
      | ok acc' =>
        rw [hx] at h
        simp only [ebind] at h
        exact ih acc' out hmem' hss hmatch h

/-- A matching security scheme is reported by name by the dedicated
security-scheme scan. -/
theorem searchSecSchemes_mem (test : String → Bool) (n : String) (c : JVal) :
    ∀ (entries : List (String × JVal)) (init out : List String), (n, c) ∈ entries →
      compMatch test n c = .ok true →
      searchSecSchemes test entries init = .ok out → n ∈ out := by
  intro entries
  induction entries with
  | nil => intro init out hmem; cases hmem
  | cons e rest ih =>
    intro init out hmem hmatch h
    simp only [searchSecSchemes, efoldl] at h
    rcases List.mem_cons.mp hmem with heq | hmem'
    · rw [← heq] at h
      rw [hmatch] at h
      simp only [ebind, if_true] at h
      have hext : ∀ i o, searchSecSchemes test rest i = .ok o → ∃ ex, o = i ++ ex := by
        intro i o ho
        refine efoldl_extends _ rest ?_ i o ho
        intro acc ns o2 h2
        cases hm2 : compMatch test ns.1 ns.2 with
        | error er => rw [hm2] at h2; simp [ebind] at h2
        | ok b =>
          rw [hm2] at h2
          simp only [ebind, Except.ok.injEq] at h2
          cases b with
          | true => exact ⟨[ns.1], by simp [← h2]⟩
          | false => exact ⟨[], by simp [← h2]⟩
      obtain ⟨ex, hex⟩ := hext (init ++ [n]) out h
      rw [hex]
      exact List.mem_append_left _ (List.mem_append_right _ (List.mem_singleton.mpr rfl))
    · cases hx : (ebind (compMatch test e.1 e.2) fun b =>
          Except.ok (if b then init ++ [e.1] else init)) with
      | error er => rw [hx] at h; simp [ebind] at h
      | ok acc' =>
        rw [hx] at h
        simp only [ebind] at h
        exact ih acc' out hmem' hmatch h

/-! ## C9: a matching security scheme is reported twice -/

/-- C9: a security scheme stored under `components.securitySchemes` whose
name or description matches the pattern is reported twice by the search:
once in the `components` category as `securitySchemes.<name>` (the
components loop iterates every category, `securitySchemes` included) and
once in the `securitySchemes` category as `<name>`. -/
theorem searchCategories_secscheme_double (test : String → Bool)
    (dfs C SS : List (String × JVal)) (n : String) (s : JVal)
    (ps ops cs prs ss : List String)
    (hcomp : lookupField dfs "components" = some (.obj C))
    (hmemC : ("securitySchemes", .obj SS) ∈ C)
    (hlook : lookupField C "securitySchemes" = some (.obj SS))
    (hscheme : (n, s) ∈ SS)
    (hmatch : compMatch test n s = .ok true)
    (hrun : searchCategories test (.obj dfs) = .ok (ps, ops, cs, prs, ss)) :
    ("securitySchemes." ++ n) ∈ cs ∧ n ∈ ss := by
  simp only [searchCategories, jsGet, hcomp, hlook, jsOr_obj, jsEntries,
    ebind_ok] at hrun
  cases hk : jsKeys (jsOr (lookupField dfs "paths") (some (.obj []))) with
  | error e => rw [hk] at hrun; simp [ebind_error] at hrun
  | ok pathKeys =>
    rw [hk] at hrun
    simp only [ebind_ok] at hrun
    cases hps : searchPathsScan test (lookupField dfs "paths") pathKeys with
    | error e => rw [hps] at hrun; simp [ebind_error] at hrun
    | ok pop =>
      rw [hps] at hrun
      simp only [ebind_ok] at hrun
      cases houter : searchAllCompCatsFrom test C [] with
      | error e => rw [houter] at hrun; simp [ebind_error] at hrun
      | ok comps =>
        rw [houter] at hrun
        simp only [ebind_ok] at hrun
        cases hssr : searchSecSchemes test SS [] with
        | error e => rw [hssr] at hrun; simp [ebind_error] at hrun
        | ok ssv =>
          rw [hssr] at hrun
          simp only [ebind_ok, Except.ok.injEq, Prod.mk.injEq] at hrun
          obtain ⟨-, -, hcs, -, hss⟩ := hrun
          constructor
          · rw [← hcs]
            exact searchAllCompCatsFrom_mem test "securitySchemes" n s SS C [] comps
              hmemC hscheme hmatch houter
          · rw [← hss]
            exact searchSecSchemes_mem test n s SS [] ssv hscheme hmatch hssr

/-- Components map of the C9 witness document. -/
def c9C : List (String × JVal) :=
  [("securitySchemes", .obj [("ApiKeyAuth", .obj [("type", .str "apiKey")])])]

/-- Document fields of the C9 witness. -/
def c9dfs : List (String × JVal) := [("components", .obj c9C)]

/-- Witness for C9: with the pattern test matching the scheme name
`ApiKeyAuth`, the scheme is reported both as
`securitySchemes.ApiKeyAuth` in `components` and as `ApiKeyAuth` in
`securitySchemes`. -/
theorem searchCategories_secscheme_double_witness :
    ("securitySchemes." ++ "ApiKeyAuth") ∈ ["securitySchemes.ApiKeyAuth"] ∧
      "ApiKeyAuth" ∈ ["ApiKeyAuth"] :=
  searchCategories_secscheme_double (fun t => t == "ApiKeyAuth") c9dfs c9C
    [("ApiKeyAuth", .obj [("type", .str "apiKey")])] "ApiKeyAuth"
    (.obj [("type", .str "apiKey")])
    [] [] ["securitySchemes.ApiKeyAuth"] [] ["ApiKeyAuth"]
    rfl (List.Mem.head _) rfl (List.Mem.head _) rfl rfl

/-! ## C6: empty search categories are omitted; all-empty gives one diagnostic -/

/-- C6: whenever the scan completes with category lists
`(ps, ops, cs, prs, ss)`, the `search-schema` result keeps exactly the
non-empty categories (each as its descriptor list), in the fixed
declaration order, and omits the empty ones; when all five are empty the
result is exactly the single diagnostic sentence naming the pattern. -/
theorem searchSchema_result_shape (test : String → Bool) (pattern : String) (doc : JVal)
    (ps ops cs prs ss : List String)
    (hrun : searchCategories test doc = .ok (ps, ops, cs, prs, ss)) :
    searchSchema test pattern doc =
      .ok (if ps.isEmpty && ops.isEmpty && cs.isEmpty && prs.isEmpty && ss.isEmpty then
          .text ("No matches found for \"" ++ pattern ++ "\"")
        else .yaml (.obj (([("paths", ps), ("operations", ops), ("components", cs),
          ("parameters", prs), ("securitySchemes", ss)].filter
            fun c => !c.2.isEmpty).map fun c => (c.1, .arr (c.2.map JVal.str))))) := by
  simp only [searchSchema, hrun, ebind_ok, assembleSearch]
  cases hps : ps.isEmpty <;> cases hops : ops.isEmpty <;> cases hcs : cs.isEmpty <;>
    cases hprs : prs.isEmpty <;> cases hss : ss.isEmpty <;>
    simp [List.filter, hps, hops, hcs, hprs, hss]

/-- Witness for C6: a test matching nothing yields exactly the diagnostic
naming the pattern; a test matching only the component `Pet` yields a
structure containing only the `components` key. -/
theorem searchSchema_result_shape_witness :
    searchSchema (fun _ => false) "zzz" (.obj [("paths", .obj [("/a", .obj [])])]) =
      .ok (.text "No matches found for \"zzz\"") ∧
    searchSchema (fun t => t == "Pet") "Pet"
        (.obj [("components", .obj [("schemas", .obj [("Pet", .obj [])])])]) =
      .ok (.yaml (.obj [("components", .arr [.str "schemas.Pet"])])) :=
  ⟨(searchSchema_result_shape (fun _ => false) "zzz"
      (.obj [("paths", .obj [("/a", .obj [])])]) [] [] [] [] [] rfl).trans rfl,
   (searchSchema_result_shape (fun t => t == "Pet") "Pet"
      (.obj [("components", .obj [("schemas", .obj [("Pet", .obj [])])])])
      [] [] ["schemas.Pet"] [] [] rfl).trans rfl⟩

/-! ## C1: the operation lookup is a plain property read, not a
fixed-method-set lookup -/

/-- A property read on a truthy (hence defined, non-null) receiver never
throws. -/
theorem jsGet_ok_of_truthy (v : JVal) (hv : v.truthy = true) (k : String) :
    ∃ r, jsGet (some v) k = .ok r := by
  cases v <;> simp [jsGet, JVal.truthy] at hv ⊢

/-- On a truthy operation every field read of `endpointRecord` succeeds. -/
theorem endpointRecord_ok (path method : String) (op : JVal) (hop : op.truthy = true) :
    ∃ j, endpointRecord path method (some op) = .ok j := by
  obtain ⟨r1, h1⟩ := jsGet_ok_of_truthy op hop "summary"
  obtain ⟨r2, h2⟩ := jsGet_ok_of_truthy op hop "description"
  obtain ⟨r3, h3⟩ := jsGet_ok_of_truthy op hop "tags"
  obtain ⟨r4, h4⟩ := jsGet_ok_of_truthy op hop "parameters"
  obtain ⟨r5, h5⟩ := jsGet_ok_of_truthy op hop "requestBody"
  obtain ⟨r6, h6⟩ := jsGet_ok_of_truthy op hop "responses"
  obtain ⟨r7, h7⟩ := jsGet_ok_of_truthy op hop "security"
  obtain ⟨r8, h8⟩ := jsGet_ok_of_truthy op hop "deprecated"
  refine ⟨.obj [("path", .str path), ("method", .str (jsUpper method)),
    ("summary", r1.getD .null), ("description", r2.getD .null), ("tags", r3.getD .null),
    ("parameters", r4.getD .null), ("requestBody", r5.getD .null),
    ("responses", r6.getD .null), ("security", r7.getD .null),
    ("deprecated", r8.getD .null)], ?_⟩
  simp [endpointRecord, h1, h2, h3, h4, h5, h6, h7, h8, ebind_ok]

/-- Two rendered texts with distinct leading characters are distinct tool
replies. -/
theorem ok_text_ne_of_head (s t : String) (c d : Char) (r1 r2 : List Char)
    (hs : s.data = c :: r1) (ht : t.data = d :: r2) (hcd : c ≠ d) :
    (Except.ok (ToolResult.text s) : Except String ToolResult) ≠ .ok (.text t) := by
  intro h
  simp only [Except.ok.injEq, ToolResult.text.injEq] at h
  rw [h, ht] at hs
  simp only [List.cons.injEq] at hs
  exact hcd hs.1.symm

theorem jsGet_obj (fs : List (String × JVal)) (k : String) :
    jsGet (some (.obj fs)) k = .ok (lookupField fs k) := rfl

theorem jsGetOpt_obj (fs : List (String × JVal)) (k : String) :
    jsGetOpt (some (.obj fs)) k = lookupField fs k := rfl

/-- A truthy value is a defined, non-null value. -/
theorem truthyOpt_true_elim (x : Option JVal) (h : truthyOpt x = true) :
    ∃ v, x = some v ∧ v.truthy = true := by
  cases x with
  | none => simp [truthyOpt] at h
  | some v => exact ⟨v, rfl, h⟩

/-- `Object.keys` succeeds on any truthy receiver. -/
theorem jsKeys_ok_of_truthy (x : Option JVal) (h : truthyOpt x = true) :
    ∃ ks, jsKeys x = .ok ks := by
  obtain ⟨v, hv, ht⟩ := truthyOpt_true_elim x h
  subst hv
  cases v <;> simp [jsKeys, jsEntries, JVal.truthy] at ht ⊢

/-- `Object.entries` succeeds on any truthy receiver. -/
theorem jsEntries_ok_of_truthy (x : Option JVal) (h : truthyOpt x = true) :
    ∃ es, jsEntries x = .ok es := by
  obtain ⟨v, hv, ht⟩ := truthyOpt_true_elim x h
  subst hv
  cases v <;> simp [jsEntries, JVal.truthy] at ht ⊢

/-- Counterexample to C1 as stated: on a Path Item that has a
`parameters` key, the argument `"parameters"` — outside the fixed
HTTP-method set — does not produce a `MethodNotFound` diagnostic;
`get-endpoint` returns an endpoint record built from the parameters
array. -/
theorem getEndpoint_parameters_counterexample :
    getEndpoint (.obj [("paths", .obj [("/a", .obj [
        ("parameters", .arr [.obj [("name", .str "id")]]),
        ("get", .obj [])])])]) "/a" "parameters" =
      .ok (.yaml (.obj [("path", .str "/a"), ("method", .str "PARAMETERS"),
        ("summary", .null), ("description", .null), ("tags", .null),
        ("parameters", .null), ("requestBody", .null), ("responses", .null),
        ("security", .null), ("deprecated", .null)])) ∧
    getEndpoint (.obj [("paths", .obj [("/a", .obj [
        ("parameters", .arr [.obj [("name", .str "id")]]),
        ("get", .obj [])])])]) "/a" "parameters" ≠
      .ok (.text ("Method " ++ "parameters" ++ " not found for path " ++ "/a")) := by
  refine ⟨rfl, fun h => ?_⟩
  rw [show getEndpoint (.obj [("paths", .obj [("/a", .obj [
        ("parameters", .arr [.obj [("name", .str "id")]]),
        ("get", .obj [])])])]) "/a" "parameters" =
      .ok (.yaml (.obj [("path", .str "/a"), ("method", .str "PARAMETERS"),
        ("summary", .null), ("description", .null), ("tags", .null),
        ("parameters", .null), ("requestBody", .null), ("responses", .null),
        ("security", .null), ("deprecated", .null)])) from rfl] at h
  simp at h

/-- C1 amended: the operation lookup of `get-endpoint`,
`get-request-body`, `get-response-schema` and request-mode `get-examples`
lower-cases the method argument and reads it as a plain property among
*all* keys of the Path Item — it is not restricted to the fixed
HTTP-method set.  The `MethodNotFound` (resp. `Operation … not found`)
diagnostic is produced exactly when the lower-cased key is absent or maps
to a falsy value; when it maps to any truthy value — including a
non-method key such as `parameters` — that value is used as the
operation and no `MethodNotFound` diagnostic is produced. -/
theorem operation_lookup_all_keys
    (dfs pfs : List (String × JVal)) (path method statusCode : String)
    (hp : path ≠ "") (hm : method ≠ "")
    (hpi : jsGetOpt (lookupField dfs "paths") path = some (.obj pfs)) :
    (truthyOpt (lookupField pfs (jsLower method)) = false →
      getEndpoint (.obj dfs) path method =
        .ok (.text ("Method " ++ method ++ " not found for path " ++ path)) ∧
      getRequestBody (.obj dfs) path method =
        .ok (.text ("Method " ++ method ++ " not found for path " ++ path)) ∧
      getResponseSchema (.obj dfs) path method statusCode =
        .ok (.text ("Method " ++ method ++ " not found for path " ++ path)) ∧
      getExamples (.obj dfs) .request (some path) (some method) none none none =
        .ok (.text ("Operation " ++ jsUpper method ++ " " ++ path ++ " not found"))) ∧
    (∀ op : JVal, lookupField pfs (jsLower method) = some op → op.truthy = true →
      getEndpoint (.obj dfs) path method =
        ebind (endpointRecord path method (some op)) (fun r => .ok (.yaml r)) ∧
      getEndpoint (.obj dfs) path method ≠
        .ok (.text ("Method " ++ method ++ " not found for path " ++ path)) ∧
      getRequestBody (.obj dfs) path method ≠
        .ok (.text ("Method " ++ method ++ " not found for path " ++ path)) ∧
      getResponseSchema (.obj dfs) path method statusCode ≠
        .ok (.text ("Method " ++ method ++ " not found for path " ++ path)) ∧
      getExamples (.obj dfs) .request (some path) (some method) none none none ≠
        .ok (.text ("Operation " ++ jsUpper method ++ " " ++ path ++ " not found"))) := by
  have hpt : strTruthy (some path) = true := by simp [strTruthy]; exact hp
  have hmt : strTruthy (some method) = true := by simp [strTruthy]; exact hm
  constructor
  · intro hfal
    refine ⟨?_, ?_, ?_, ?_⟩
    · simp [getEndpoint, jsGet_obj, ebind_ok, hpi, hfal, truthyOpt_obj]
    · simp [getRequestBody, jsGet_obj, ebind_ok, hpi, hfal, truthyOpt_obj]
    · simp [getResponseSchema, jsGet_obj, ebind_ok, hpi, hfal, truthyOpt_obj]
    · simp [getExamples, jsGet_obj, jsGetOpt_obj, ebind_ok, hpi, hfal, hpt, hmt,
        truthyOpt_obj, strInterp]
  · intro op hL hopt
    have hLt : truthyOpt (lookupField pfs (jsLower method)) = true := by
      rw [hL, truthyOpt_some, hopt]
    refine ⟨?_, ?_, ?_, ?_, ?_⟩
    · simp [getEndpoint, jsGet_obj, ebind_ok, hpi, hL, truthyOpt_some, hopt,
        truthyOpt_obj, truthy_obj]
    · obtain ⟨j, hj⟩ := endpointRecord_ok path method op hopt
      have hx : getEndpoint (.obj dfs) path method = .ok (.yaml j) := by
        simp [getEndpoint, jsGet_obj, ebind_ok, hpi, hL, truthyOpt_some, hopt,
          truthyOpt_obj, truthy_obj, hj]
      rw [hx]
      intro h
      simp at h
    · obtain ⟨rb, hrb⟩ := jsGet_ok_of_truthy op hopt "requestBody"
      have hx : getRequestBody (.obj dfs) path method =
          (if !truthyOpt rb then
            .ok (.text ("No request body defined for " ++ method ++ " " ++ path))
          else .ok (.yaml (rb.getD .null))) := by
        simp [getRequestBody, jsGet_obj, ebind_ok, hpi, hL, truthyOpt_some, hopt,
          truthyOpt_obj, truthy_obj, hrb]
      rw [hx]
      cases htr : truthyOpt rb with
      | false =>
        simp only [htr, Bool.not_false, if_true]
        rw [String.append_assoc, String.append_assoc, String.append_assoc,
          String.append_assoc]
        exact ok_text_ne_of_head _ _ 'N' 'M' _ _ rfl rfl (by decide)
      | true =>
        simp only [htr, Bool.not_true, if_false]
        intro h
        simp at h
    · obtain ⟨rsv, hrsv⟩ := jsGet_ok_of_truthy op hopt "responses"
      have hx : getResponseSchema (.obj dfs) path method statusCode =
          (if !truthyOpt rsv then
            .ok (.text ("No responses defined for " ++ method ++ " " ++ path))
          else
            ebind (jsGet rsv statusCode) fun r1 =>
            ebind (jsGet rsv "default") fun rdef =>
            let response := jsOr r1 rdef
            if !truthyOpt response then
              ebind (jsKeys rsv) fun keys =>
              .ok (.text ("No response for status code " ++ statusCode ++
                " (or default) found for " ++ method ++ " " ++ path ++
                ".\nAvailable status codes: " ++ joinSep ", " keys))
            else .ok (.yaml (response.getD .null))) := by
        simp [getResponseSchema, jsGet_obj, ebind_ok, hpi, hL, truthyOpt_some, hopt,
          truthyOpt_obj, truthy_obj, hrsv]
      rw [hx]
      cases htr : truthyOpt rsv with
      | false =>
        simp only [htr, Bool.not_false, if_true]
        rw [String.append_assoc, String.append_assoc, String.append_assoc,
          String.append_assoc]
        exact ok_text_ne_of_head _ _ 'N' 'M' _ _ rfl rfl (by decide)
      | true =>
        simp only [htr, Bool.not_true, if_false]
        obtain ⟨rv, hrv, hrvt⟩ := truthyOpt_true_elim rsv htr
        subst hrv
        obtain ⟨r1v, hr1⟩ := jsGet_ok_of_truthy rv hrvt statusCode
        obtain ⟨rdv, hrd⟩ := jsGet_ok_of_truthy rv hrvt "default"
        rw [hr1, ebind_ok, hrd, ebind_ok]
        cases hresp : truthyOpt (jsOr r1v rdv) with
        | false =>
          simp only [hresp, Bool.not_false, if_true]
          obtain ⟨ks, hks⟩ := jsKeys_ok_of_truthy (some rv) htr
          rw [hks, ebind_ok]
          rw [String.append_assoc, String.append_assoc, String.append_assoc,
            String.append_assoc, String.append_assoc, String.append_assoc]
          exact ok_text_ne_of_head _ _ 'N' 'M' _ _ rfl rfl (by decide)
        | true =>
          simp only [hresp, Bool.not_true, if_false]
          intro h
          simp at h
    · obtain ⟨rb, hrb⟩ := jsGet_ok_of_truthy op hopt "requestBody"
      have hx : getExamples (.obj dfs) .request (some path) (some method) none none none =
          (if !truthyOpt (jsGetOpt rb "content") then
            .ok (.text ("No request body defined for " ++ jsUpper method ++ " " ++ path))
          else
            ebind (jsEntries (jsGetOpt rb "content")) fun centries =>
            ebind (mediaExamples centries) fun examples =>
            if examples.isEmpty then
              .ok (.text ("No examples found for " ++ jsUpper method ++ " " ++ path ++
                " request"))
            else .ok (.yaml (.obj examples))) := by
        simp [getExamples, jsGet_obj, jsGetOpt_obj, ebind_ok, hpi, hL, truthyOpt_some,
          hopt, truthyOpt_obj, truthy_obj, hpt, hmt, strInterp, hrb]
      rw [hx]
      cases htc : truthyOpt (jsGetOpt rb "content") with
      | false =>
        simp only [htc, Bool.not_false, if_true]
        rw [String.append_assoc, String.append_assoc, String.append_assoc,
          String.append_assoc]
        exact ok_text_ne_of_head _ _ 'N' 'O' _ _ rfl rfl (by decide)
      | true =>
        simp only [htc, Bool.not_true, if_false]
        obtain ⟨es, hes⟩ := jsEntries_ok_of_truthy (jsGetOpt rb "content") htc
        rw [hes, ebind_ok]
        cases hme : mediaExamples es with
        | error e =>
          intro h
          simp [ebind_error] at h
        | ok exs =>
          rw [if_neg (by decide), ebind_ok]
          cases hemp : exs.isEmpty with
          | true =>
            rw [if_pos rfl]
            rw [String.append_assoc, String.append_assoc, String.append_assoc,
              String.append_assoc]
            exact ok_text_ne_of_head _ _ 'N' 'O' _ _ rfl rfl (by decide)
          | false =>
            rw [if_neg (by decide)]
            intro h
            simp at h

/-- Path Item fields of the C1 witness. -/
def c1pfs : List (String × JVal) :=
  [("parameters", .arr [.obj [("name", .str "id")]]), ("get", .obj [])]

/-- Document fields of the C1 witness. -/
def c1dfs : List (String × JVal) := [("paths", .obj [("/a", .obj c1pfs)])]

/-- Witness for the amended C1: the non-method key `parameters` is looked
up and its (truthy) array value is used as the operation, while the
absent key `patch` produces the `MethodNotFound` diagnostic. -/
theorem operation_lookup_all_keys_witness :
    getEndpoint (.obj c1dfs) "/a" "parameters" =
      .ok (.yaml (.obj [("path", .str "/a"), ("method", .str "PARAMETERS"),
        ("summary", .null), ("description", .null), ("tags", .null),
        ("parameters", .null), ("requestBody", .null), ("responses", .null),
        ("security", .null), ("deprecated", .null)])) ∧
    getEndpoint (.obj c1dfs) "/a" "patch" =
      .ok (.text "Method patch not found for path /a") :=
  ⟨(((operation_lookup_all_keys c1dfs c1pfs "/a" "parameters" "200"
      (by decide) (by decide) rfl).2
      (.arr [.obj [("name", .str "id")]]) rfl rfl).1).trans rfl,
   (((operation_lookup_all_keys c1dfs c1pfs "/a" "patch" "200"
      (by decide) (by decide) rfl).1 rfl).1).trans rfl⟩

/-! ## C3: example-synthesis rules -/

/-- Counterexample to C3 as stated: in component mode a lone `example`
value is wrapped as `{default: <example>}` (line 542), not as the
`{default: {value: <example>}}` shape the claim asserts for all three
modes. -/
theorem getExamples_component_shape_counterexample :
    getExamples (.obj [("components", .obj [("schemas",
        .obj [("Pet", .obj [("example", .num 5)])])])])
      .component none none none (some "schemas") (some "Pet") =
      .ok (.yaml (.obj [("default", .num 5)])) ∧
    (JVal.obj [("default", .num 5)]) ≠
      (JVal.obj [("default", .obj [("value", .num 5)])]) :=
  ⟨rfl, by simp⟩

/-- C3 amended: per examined node, a truthy `examples` map is used
verbatim; otherwise a truthy `example` value is synthesized — in request
and response modes (via `mediaStep`) as `{default: {value: <example>}}`,
but in component mode as `{default: <example>}` without the `value`
wrapper; with neither, the node contributes nothing (request/response) or
the no-examples diagnostic (component). -/
theorem example_synthesis_rules
    (ct : String) (cf : List (String × JVal)) (acc : List (String × JVal)) :
    (∀ ev : JVal, lookupField cf "examples" = some ev → ev.truthy = true →
      mediaStep acc (ct, .obj cf) = .ok (objSet acc ct ev)) ∧
    (truthyOpt (lookupField cf "examples") = false →
      ∀ ev : JVal, lookupField cf "example" = some ev → ev.truthy = true →
      mediaStep acc (ct, .obj cf) =
        .ok (objSet acc ct (.obj [("default", .obj [("value", ev)])]))) ∧
    (truthyOpt (lookupField cf "examples") = false →
      truthyOpt (lookupField cf "example") = false →
      mediaStep acc (ct, .obj cf) = .ok acc) ∧
    (∀ (dfs compf : List (String × JVal)) (cty cnm : String),
      cty ≠ "" → cnm ≠ "" →
      jsGetOpt (jsGetOpt (lookupField dfs "components") cty) cnm = some (.obj compf) →
      (∀ ev : JVal, lookupField compf "examples" = some ev → ev.truthy = true →
        getExamples (.obj dfs) .component none none none (some cty) (some cnm) =
          .ok (.yaml ev)) ∧
      (truthyOpt (lookupField compf "examples") = false →
        ∀ ev : JVal, lookupField compf "example" = some ev → ev.truthy = true →
        getExamples (.obj dfs) .component none none none (some cty) (some cnm) =
          .ok (.yaml (.obj [("default", ev)]))) ∧
      (truthyOpt (lookupField compf "examples") = false →
        truthyOpt (lookupField compf "example") = false →
        getExamples (.obj dfs) .component none none none (some cty) (some cnm) =
          .ok (.text ("No examples found for component " ++ cty ++ "." ++ cnm)))) ∧
    (∀ (dfs pfs ofs rbf cents : List (String × JVal)) (p m : String),
      p ≠ "" → m ≠ "" →
      jsGetOpt (lookupField dfs "paths") p = some (.obj pfs) →
      lookupField pfs (jsLower m) = some (.obj ofs) →
      lookupField ofs "requestBody" = some (.obj rbf) →
      lookupField rbf "content" = some (.obj cents) →
      getExamples (.obj dfs) .request (some p) (some m) none none none =
        ebind (mediaExamples cents) fun examples =>
        if examples.isEmpty then
          .ok (.text ("No examples found for " ++ jsUpper m ++ " " ++ p ++ " request"))
        else .ok (.yaml (.obj examples))) := by
  refine ⟨?_, ?_, ?_, ?_, ?_⟩
  · intro ev hev het
    simp [mediaStep, jsGet_obj, ebind_ok, hev, truthyOpt_some, het]
  · intro hfal ev hev het
    simp [mediaStep, jsGet_obj, ebind_ok, hfal, hev, truthyOpt_some, het]
  · intro hfal1 hfal2
    simp [mediaStep, jsGet_obj, ebind_ok, hfal1, hfal2]
  · intro dfs compf cty cnm hcty hcnm hres
    have hct : strTruthy (some cty) = true := by simp [strTruthy]; exact hcty
    have hcn : strTruthy (some cnm) = true := by simp [strTruthy]; exact hcnm
    refine ⟨?_, ?_, ?_⟩
    · intro ev hev het
      simp [getExamples, jsGet_obj, ebind_ok, hres, hev, truthyOpt_some, het,
        truthyOpt_obj, truthy_obj, hct, hcn, strInterp]
    · intro hfal ev hev het
      simp [getExamples, jsGet_obj, ebind_ok, hres, hfal, hev, truthyOpt_some, het,
        truthyOpt_obj, truthy_obj, hct, hcn, strInterp]
    · intro hfal1 hfal2
      simp [getExamples, jsGet_obj, ebind_ok, hres, hfal1, hfal2,
        truthyOpt_obj, truthy_obj, truthy_null, hct, hcn, strInterp, truthyOpt_some]
  · intro dfs pfs ofs rbf cents p m hp hm hpi hop hrb hct2
    have hpt : strTruthy (some p) = true := by simp [strTruthy]; exact hp
    have hmt : strTruthy (some m) = true := by simp [strTruthy]; exact hm
    simp [getExamples, jsGet_obj, jsGetOpt_obj, ebind_ok, hpi, hop, hrb, hct2,
      truthyOpt_obj, truthy_obj, hpt, hmt, strInterp, jsEntries]

/-- Witness for the amended C3: a request-mode content node with
`example: 7` synthesizes `{default: {value: 7}}`, while a component with
`example: 5` yields `{default: 5}` without the wrapper. -/
theorem example_synthesis_rules_witness :
    mediaStep [] ("application/json", .obj [("example", .num 7)]) =
      .ok [("application/json", .obj [("default", .obj [("value", .num 7)])])] ∧
    getExamples (.obj [("components", .obj [("schemas",
        .obj [("Pet", .obj [("example", .num 5)])])])])
      .component none none none (some "schemas") (some "Pet") =
      .ok (.yaml (.obj [("default", .num 5)])) :=
  ⟨((example_synthesis_rules "application/json" [("example", .num 7)] []).2.1
      rfl (.num 7) rfl rfl).trans rfl,
   (((example_synthesis_rules "x" [] []).2.2.2.1
      [("components", .obj [("schemas", .obj [("Pet", .obj [("example", .num 5)])])])]
      [("example", .num 5)] "schemas" "Pet" (by decide) (by decide) rfl).2.1
      rfl (.num 5) rfl rfl)⟩

/-! ## C7: `list-endpoints` characterization -/

/-- Spec-side summary rule, following the claim's words as amended: the
operation's summary, or `"No summary"` when the summary is absent *or
falsy* (the code's `operation.summary || "No summary"`). -/
def endpointSummaryOf (v : JVal) : JVal :=
  match v with
  | .obj fs =>
    match lookupField fs "summary" with
    | some s => if s.truthy then s else .str "No summary"
    | none => .str "No summary"
  | _ => .str "No summary"

/-- Spec-side per-path map, following the claim's words: each Path Item
key in the fixed-method-set intersection (case-insensitively), upper-cased,
mapped to the summary rule. -/
def pathMethodsSpec (fs : List (String × JVal)) : List (String × JVal) :=
  (fs.filter fun kv => methodSet.contains (jsLower kv.1)).map
    fun kv => (jsUpper kv.1, endpointSummaryOf kv.2)

/-- Spec-side `list-endpoints` result: same key list as the document's
paths map, each path mapped to its method map. -/
def listEndpointsSpec (pjt : List (String × JVal)) : List (String × JVal) :=
  pjt.map fun pv =>
    (pv.1, .obj (pathMethodsSpec (match pv.2 with | .obj fs => fs | _ => [])))

theorem objSet_append (fs : List (String × JVal)) (k : String) (v : JVal)
    (h : k ∉ fs.map Prod.fst) : objSet fs k v = fs ++ [(k, v)] := by
  have hany : (fs.any fun p => p.1 == k) = false := by
    rw [List.any_eq_false]
    intro p hp
    simp only [beq_iff_eq]
    intro hpk
    exact h (hpk ▸ List.mem_map_of_mem Prod.fst hp)
  simp [objSet, hany]

theorem lookupField_eq_of_nodup (fs : List (String × JVal)) (k : String) (v : JVal)
    (hnd : (fs.map Prod.fst).Nodup) (hmem : (k, v) ∈ fs) :
    lookupField fs k = some v := by
  induction fs with
  | nil => cases hmem
  | cons kv rest ih =>
    simp only [List.map_cons, List.nodup_cons] at hnd
    rcases List.mem_cons.mp hmem with heq | hmem'
    · rw [← heq]
      simp [lookupField]
    · have hk : kv.1 ≠ k := by
        intro he
        exact hnd.1 (he ▸ List.mem_map_of_mem Prod.fst hmem')
      simp only [lookupField]
      rw [if_neg hk]
      exact ih hnd.2 hmem'

theorem filter_map_fst (fs : List (String × JVal)) (p : String → Bool) :
    (fs.map Prod.fst).filter p = (fs.filter fun kv => p kv.1).map Prod.fst := by
  induction fs with
  | nil => rfl
  | cons kv rest ih =>
    by_cases hp : p kv.1
    · simp [List.filter_cons, hp, ih]
    · simp [List.filter_cons, hp, ih]

theorem jsUpper_methodSet_inj :
    ∀ x ∈ methodSet, ∀ y ∈ methodSet, jsUpper x = jsUpper y → x = y := by
  intro x hx y hy
  fin_cases hx <;> fin_cases hy <;> intro h <;>
    first
    | rfl
    | exact absurd h (by decide)

/-- The summary cell computed by `list-endpoints` equals the spec-side
summary rule on any defined non-null operation value. -/
theorem summaryEntry_spec (v : JVal) (hv : v ≠ JVal.null) :
    summaryEntry (some v) = .ok (endpointSummaryOf v) := by
  cases v with
  | null => exact absurd rfl hv
  | obj fs =>
    cases hs : lookupField fs "summary" with
    | none =>
      simp [summaryEntry, jsGet_obj, ebind_ok, hs, jsOr, truthyOpt_none,
        endpointSummaryOf]
    | some s' =>
      cases hst : s'.truthy with
      | true =>
        simp [summaryEntry, jsGet_obj, ebind_ok, hs, jsOr, truthyOpt_some, hst,
          endpointSummaryOf]
      | false =>
        simp [summaryEntry, jsGet_obj, ebind_ok, hs, jsOr, truthyOpt_some, hst,
          endpointSummaryOf]
  | bool b =>
    simp [summaryEntry, jsGet, ebind_ok, jsOr, truthyOpt_none, endpointSummaryOf]
  | num n =>
    simp [summaryEntry, jsGet, ebind_ok, jsOr, truthyOpt_none, endpointSummaryOf]
  | str s =>
    simp [summaryEntry, jsGet, ebind_ok, jsOr, truthyOpt_none, endpointSummaryOf]
  | arr xs =>
    simp [summaryEntry, jsGet, ebind_ok, jsOr, truthyOpt_none, endpointSummaryOf,
      show parseIndex "summary" = none from by decide]

/-- The method fold of `list-endpoints` appends one upper-cased entry per
processed key. -/
theorem listEndpointsMethods_fold (fs : List (String × JVal)) :
    ∀ (ms : List String) (acc : List (String × JVal)),
      (∀ m ∈ ms, ∃ v, lookupField fs m = some v ∧ v ≠ JVal.null) →
      ((acc.map Prod.fst) ++ ms.map jsUpper).Nodup →
      efoldl (fun acc m =>
        ebind (summaryEntry (lookupField fs m)) fun s =>
        .ok (objSet acc (jsUpper m) s)) ms acc =
      .ok (acc ++ ms.map fun m =>
        (jsUpper m, endpointSummaryOf ((lookupField fs m).getD .null))) := by
  intro ms
  induction ms with
  | nil =>
    intro acc hv hnd
    simp [efoldl]
  | cons m rest ih =>
    intro acc hv hnd
    obtain ⟨v, hvl, hvn⟩ := hv m (List.mem_cons_self _ _)
    have hstep : (ebind (summaryEntry (lookupField fs m)) fun s =>
        Except.ok (objSet acc (jsUpper m) s)) =
        .ok (objSet acc (jsUpper m) (endpointSummaryOf v)) := by
      rw [hvl, summaryEntry_spec v hvn, ebind_ok]
    rw [show efoldl (fun acc m =>
        ebind (summaryEntry (lookupField fs m)) fun s =>
        Except.ok (objSet acc (jsUpper m) s)) (m :: rest) acc =
      ebind (ebind (summaryEntry (lookupField fs m)) fun s =>
        Except.ok (objSet acc (jsUpper m) s)) (fun acc' =>
        efoldl (fun acc m =>
          ebind (summaryEntry (lookupField fs m)) fun s =>
          Except.ok (objSet acc (jsUpper m) s)) rest acc') from rfl]
    rw [hstep, ebind_ok]
    have hknot : jsUpper m ∉ acc.map Prod.fst := by
      intro hk
      rw [List.map_cons] at hnd
      exact (List.disjoint_of_nodup_append hnd) hk (List.mem_cons_self _ _)
    rw [objSet_append acc (jsUpper m) _ hknot]
    have hnd' : (((acc ++ [(jsUpper m, endpointSummaryOf v)]).map Prod.fst) ++
        rest.map jsUpper).Nodup := by
      rw [List.map_append]
      simp only [List.map_cons] at hnd
      rw [List.append_cons] at hnd
      simpa using hnd
    rw [ih (acc ++ [(jsUpper m, endpointSummaryOf v)])
      (fun m' hm' => hv m' (List.mem_cons_of_mem _ hm')) hnd']
    simp [hvl, List.append_assoc]

/-- The per-path method map of `list-endpoints` equals the spec-side map
on a document-shaped Path Item (unique keys; method keys canonically
lower-case with non-null values). -/
theorem listEndpointsMethods_spec (fs : List (String × JVal))
    (hnd : (fs.map Prod.fst).Nodup)
    (hm : ∀ kv ∈ fs, methodSet.contains (jsLower kv.1) = true →
      kv.2 ≠ JVal.null ∧ kv.1 = jsLower kv.1) :
    listEndpointsMethods (.obj fs) = .ok (pathMethodsSpec fs) := by
  have hfm := filter_map_fst fs (fun k => methodSet.contains (jsLower k))
  have hsub : ∀ kv : String × JVal,
      kv ∈ (fs.filter fun kv => methodSet.contains (jsLower kv.1)) → kv ∈ fs :=
    fun kv hkv => List.mem_of_mem_filter hkv
  have hmemset : ∀ kv : String × JVal,
      kv ∈ (fs.filter fun kv => methodSet.contains (jsLower kv.1)) →
      kv.1 ∈ methodSet := by
    intro kv hkv
    have hp := (List.mem_filter.mp hkv).2
    have h2 := (hm kv (hsub kv hkv) hp).2
    rw [h2]
    exact List.mem_of_elem_eq_true hp
  have hval : ∀ m ∈ (fs.map Prod.fst).filter (fun k => methodSet.contains (jsLower k)),
      ∃ v, lookupField fs m = some v ∧ v ≠ JVal.null := by
    intro m hmf
    rw [hfm] at hmf
    obtain ⟨kv, hkv, hkv1⟩ := List.mem_map.mp hmf
    refine ⟨kv.2, ?_, (hm kv (hsub kv hkv) (List.mem_filter.mp hkv).2).1⟩
    rw [← hkv1]
    exact lookupField_eq_of_nodup fs kv.1 kv.2 hnd (hsub kv hkv)
  have hndm : ([] ++ ((fs.map Prod.fst).filter
      (fun k => methodSet.contains (jsLower k))).map jsUpper).Nodup := by
    rw [List.nil_append, hfm]
    refine List.Nodup.map_on ?_ ?_
    · intro x hx y hy hxy
      have hx1 := List.mem_map.mp hx
      have hy1 := List.mem_map.mp hy
      obtain ⟨kvx, hkvx, hkvx1⟩ := hx1
      obtain ⟨kvy, hkvy, hkvy1⟩ := hy1
      have : kvx.1 ∈ methodSet := hmemset kvx hkvx
      have : kvy.1 ∈ methodSet := hmemset kvy hkvy
      exact jsUpper_methodSet_inj x (hkvx1 ▸ hmemset kvx hkvx) y
        (hkvy1 ▸ hmemset kvy hkvy) hxy
    · rw [← hfm]
      exact List.Nodup.filter _ hnd
  simp only [listEndpointsMethods, jsKeys, jsEntries, ebind_ok, jsGet_obj]
  rw [listEndpointsMethods_fold fs _ [] hval hndm]
  rw [List.nil_append, hfm, List.map_map]
  simp only [pathMethodsSpec]
  refine congrArg Except.ok (List.map_congr_left ?_)
  intro kv hkv
  simp only [Function.comp]
  rw [lookupField_eq_of_nodup fs kv.1 kv.2 hnd (hsub kv hkv)]
  rfl

/-- The path fold of `list-endpoints` appends one entry per path. -/
theorem listEndpoints_fold :
    ∀ (pjt : List (String × JVal)) (acc : List (String × JVal)),
      (∀ pv ∈ pjt, ∃ fs, pv.2 = JVal.obj fs ∧
        listEndpointsMethods pv.2 = .ok (pathMethodsSpec fs)) →
      ((acc.map Prod.fst) ++ pjt.map Prod.fst).Nodup →
      efoldl (fun acc pv =>
        ebind (listEndpointsMethods pv.2) fun ms =>
        .ok (objSet acc pv.1 (.obj ms))) pjt acc =
      .ok (acc ++ listEndpointsSpec pjt) := by
  intro pjt
  induction pjt with
  | nil =>
    intro acc hv hnd
    simp [efoldl, listEndpointsSpec]
  | cons pv rest ih =>
    intro acc hv hnd
    obtain ⟨fs, hfs, hms⟩ := hv pv (List.mem_cons_self _ _)
    rw [show efoldl (fun acc pv =>
        ebind (listEndpointsMethods pv.2) fun ms =>
        Except.ok (objSet acc pv.1 (.obj ms))) (pv :: rest) acc =
      ebind (ebind (listEndpointsMethods pv.2) fun ms =>
        Except.ok (objSet acc pv.1 (.obj ms))) (fun acc' =>
        efoldl (fun acc pv =>
          ebind (listEndpointsMethods pv.2) fun ms =>
          Except.ok (objSet acc pv.1 (.obj ms))) rest acc') from rfl]
    rw [hms, ebind_ok, ebind_ok]
    have hknot : pv.1 ∉ acc.map Prod.fst := by
      intro hk
      rw [List.map_cons] at hnd
      exact (List.disjoint_of_nodup_append hnd) hk (List.mem_cons_self _ _)
    rw [objSet_append acc pv.1 _ hknot]
    have hnd' : (((acc ++ [(pv.1, JVal.obj (pathMethodsSpec fs))]).map Prod.fst) ++
        rest.map Prod.fst).Nodup := by
      rw [List.map_append]
      simp only [List.map_cons] at hnd
      rw [List.append_cons] at hnd
      simpa using hnd
    rw [ih (acc ++ [(pv.1, JVal.obj (pathMethodsSpec fs))])
      (fun pv' hpv' => hv pv' (List.mem_cons_of_mem _ hpv')) hnd']
    simp only [listEndpointsSpec, List.map_cons, hfs, List.append_assoc,
      List.cons_append, List.nil_append]

/-- Counterexample to C7 as stated: an operation whose `summary` is the
empty string (present, not absent) is still rendered as `"No summary"`
because the code tests truthiness (`operation.summary || "No summary"`),
so the claim's entry (the summary itself, `""`) is not produced. -/
theorem listEndpoints_empty_summary_counterexample :
    listEndpoints (.obj [("paths", .obj [("/a", .obj [("get",
        .obj [("summary", .str "")])])])]) =
      .ok (.yaml (.obj [("/a", .obj [("GET", .str "No summary")])])) ∧
    listEndpoints (.obj [("paths", .obj [("/a", .obj [("get",
        .obj [("summary", .str "")])])])]) ≠
      .ok (.yaml (.obj [("/a", .obj [("GET", .str "")])])) := by
  refine ⟨rfl, fun h => ?_⟩
  rw [show listEndpoints (.obj [("paths", .obj [("/a", .obj [("get",
        .obj [("summary", .str "")])])])]) =
      .ok (.yaml (.obj [("/a", .obj [("GET", .str "No summary")])])) from rfl] at h
  simp at h

/-- C7 amended: on a document-shaped `paths` map (unique path keys; each
Path Item an object with unique keys whose method keys are canonically
lower-case and non-null), `list-endpoints` produces exactly one entry per
path — key list equal to the document's path key list — and maps each
upper-cased method of the fixed-set intersection to the operation's
summary, or to `"No summary"` when the summary is absent or falsy. -/
theorem listEndpoints_characterization (dfs pjt : List (String × JVal))
    (hpaths : lookupField dfs "paths" = some (.obj pjt))
    (hkeys : (pjt.map Prod.fst).Nodup)
    (hitems : ∀ pv ∈ pjt, ∃ fs, pv.2 = JVal.obj fs ∧ (fs.map Prod.fst).Nodup ∧
      ∀ kv ∈ fs, methodSet.contains (jsLower kv.1) = true →
        kv.2 ≠ JVal.null ∧ kv.1 = jsLower kv.1) :
    listEndpoints (.obj dfs) = .ok (.yaml (.obj (listEndpointsSpec pjt))) ∧
    (listEndpointsSpec pjt).map Prod.fst = pjt.map Prod.fst := by
  constructor
  · have hitems' : ∀ pv ∈ pjt, ∃ fs, pv.2 = JVal.obj fs ∧
        listEndpointsMethods pv.2 = .ok (pathMethodsSpec fs) := by
      intro pv hpv
      obtain ⟨fs, hfs, hnd, hm⟩ := hitems pv hpv
      exact ⟨fs, hfs, hfs ▸ listEndpointsMethods_spec fs hnd hm⟩
    simp only [listEndpoints, jsGet_obj, ebind_ok, hpaths, jsOr_obj, jsEntries]
    rw [listEndpoints_fold pjt [] hitems' (by simpa using hkeys)]
    rw [ebind_ok, List.nil_append]
  · simp [listEndpointsSpec]

/-- Paths map of the C7 witness. -/
def c7pjt : List (String × JVal) :=
  [("/a", .obj [("get", .obj [("summary", .str "S")]), ("post", .obj [])])]

/-- Witness for the amended C7: one path with a summarized `get` and a
summaryless `post` renders `{"/a": {GET: "S", POST: "No summary"}}`, with
the key list equal to the paths key list. -/
theorem listEndpoints_characterization_witness :
    listEndpoints (.obj [("paths", .obj c7pjt)]) =
      .ok (.yaml (.obj [("/a", .obj [("GET", .str "S"),
        ("POST", .str "No summary")])])) ∧
    (listEndpointsSpec c7pjt).map Prod.fst = c7pjt.map Prod.fst := by
  have h := listEndpoints_characterization [("paths", .obj c7pjt)] c7pjt rfl
    (by decide)
    (by
      intro pv hpv
      rw [show c7pjt = [("/a", JVal.obj [("get", .obj [("summary", .str "S")]),
        ("post", .obj [])])] from rfl] at hpv
      rcases List.mem_singleton.mp hpv with rfl
      refine ⟨[("get", .obj [("summary", .str "S")]), ("post", .obj [])], rfl,
        by decide, ?_⟩
      intro kv hkv
      rcases List.mem_cons.mp hkv with rfl | hkv'
      · exact fun _ => ⟨by simp, by decide⟩
      · rcases List.mem_singleton.mp hkv' with rfl
        exact fun _ => ⟨by simp, by decide⟩)
  exact ⟨h.1.trans rfl, h.2⟩

/-! ## C2: crash behaviour on degenerate documents -/

/-- Counterexample to C2 as stated: a Path Item whose `get` key maps to
`null` (one of the claim's own examples) makes `list-endpoints` throw at
`operation.summary`, and a `null` component value makes `search-schema`
throw at `component.description`. -/
theorem null_field_crash_counterexample :
    listEndpoints (.obj [("paths", .obj [("/a", .obj [("get", JVal.null)])])]) =
      .error "TypeError: cannot read summary of null" ∧
    searchSchema (fun _ => false) "x"
        (.obj [("components", .obj [("schemas", .obj [("Foo", JVal.null)])])]) =
      .error "TypeError: cannot read description of null" :=
  ⟨rfl, rfl⟩

/-- `null` test (no `DecidableEq` on the nested `JVal` is needed). -/
def isNullV : JVal → Bool
  | .null => true
  | _ => false

/-- A content map (media type → node) is safe to scan when its entry
values (object fields or array elements) are non-null. -/
def contentNodeOK : JVal → Bool
  | .obj es => es.all fun e => !isNullV e.2
  | .arr _ => false
  | _ => true

/-- A response value is safe when, if it is an object, its `content` is
safe to scan. -/
def respValOK : JVal → Bool
  | .obj fs =>
    (match lookupField fs "content" with
     | some c => contentNodeOK c
     | none => true)
  | _ => true

/-- Conventional shape of an operation object: `parameters` an array of
non-null entries when truthy, `tags` an array when truthy, a scannable
`requestBody.content`, and `responses` an object of safe values when
truthy. -/
def opFieldsOK (fs : List (String × JVal)) : Bool :=
  (match lookupField fs "parameters" with
   | some (.arr xs) => xs.all fun v => !isNullV v
   | some v => !v.truthy
   | none => true) &&
  (match lookupField fs "tags" with
   | some (.arr _) => true
   | some v => !v.truthy
   | none => true) &&
  (match lookupField fs "requestBody" with
   | some (.obj rb) =>
     (match lookupField rb "content" with
      | some c => contentNodeOK c
      | none => true)
   | some _ => true
   | none => true) &&
  (match lookupField fs "responses" with
   | some (.obj rs) => rs.all fun p => respValOK p.2
   | some v => !v.truthy
   | none => true)

/-- One Path Item entry: non-null when its key is (case-insensitively) in
the fixed method set, and of conventional operation shape when it is an
object. -/
def pathItemEntryOK (kv : String × JVal) : Bool :=
  (if methodSet.contains (jsLower kv.1) then !isNullV kv.2 else true) &&
  (match kv.2 with
   | .obj fs => opFieldsOK fs
   | _ => true)

/-- Conventional Path Item: an object (or a falsy non-null scalar) whose
shared `parameters` is iterable when truthy and whose entries are
conventional. -/
def pathItemOK : JVal → Bool
  | .obj fs =>
    (match lookupField fs "parameters" with
     | some (.arr _) => true
     | some (.str _) => true
     | some v => !v.truthy
     | none => true) &&
    fs.all pathItemEntryOK
  | .null => false
  | v => !v.truthy

/-- Conventional `paths` value: an object of conventional Path Items, or
falsy. -/
def pathsOK : JVal → Bool
  | .obj ps => ps.all fun p => pathItemOK p.2
  | v => !v.truthy

/-- Conventional component category value: entry values non-null. -/
def catValOK : JVal → Bool
  | .obj es => es.all fun e => !isNullV e.2
  | .arr _ => false
  | _ => true

/-- Conventional `components` value: an object of conventional
categories, or falsy. -/
def componentsOK : JVal → Bool
  | .obj cats => cats.all fun c => catValOK c.2
  | v => !v.truthy

/-- Conventional document: non-null, with `paths` and `components` — when
present — of conventional shape.  Any conventional field may be absent
(treated as an empty mapping/sequence). -/
def docOK : JVal → Bool
  | .obj fs =>
    (match lookupField fs "paths" with
     | some p => pathsOK p
     | none => true) &&
    (match lookupField fs "components" with
     | some c => componentsOK c
     | none => true)
  | .null => false
  | _ => true

/-- Property reads on defined non-null receivers compute the pure
optional-chaining read. -/
theorem jsGet_eq_of_ne_null (v : JVal) (hv : v ≠ JVal.null) (k : String) :
    jsGet (some v) k = .ok (jsGetOpt (some v) k) := by
  cases v <;> simp [jsGet, jsGetOpt] <;> exact absurd rfl hv

/-- `x || {}` is a defined non-null value. -/
theorem jsOr_default_ne_null (a : Option JVal) (fs : List (String × JVal)) :
    ∃ v, jsOr a (some (.obj fs)) = some v ∧ v ≠ JVal.null := by
  cases ha : truthyOpt a with
  | true =>
    obtain ⟨v, hv, hvt⟩ := truthyOpt_true_elim a ha
    refine ⟨v, ?_, ?_⟩
    · rw [jsOr, ha, if_pos rfl, hv]
    · intro he
      rw [he] at hvt
      exact absurd hvt (by decide)
  | false =>
    refine ⟨.obj fs, ?_, by simp⟩
    rw [jsOr, ha]
    simp

theorem jsEntries_ok_of_ne_null (v : JVal) (hv : v ≠ JVal.null) :
    ∃ es, jsEntries (some v) = .ok es := by
  cases v <;> simp [jsEntries] <;> exact absurd rfl hv

theorem jsKeys_ok_of_ne_null (v : JVal) (hv : v ≠ JVal.null) :
    ∃ ks, jsKeys (some v) = .ok ks := by
  obtain ⟨es, hes⟩ := jsEntries_ok_of_ne_null v hv
  exact ⟨es.map Prod.fst, by simp [jsKeys, hes]⟩

/-- A fold whose steps succeed on every element succeeds. -/
theorem efoldl_ok {α β : Type} (f : β → α → Except String β) (l : List α)
    (hf : ∀ acc, ∀ x ∈ l, ∃ out, f acc x = .ok out) :
    ∀ init, ∃ out, efoldl f l init = .ok out := by
  induction l with
  | nil => intro init; exact ⟨init, rfl⟩
  | cons x rest ih =>
    intro init
    obtain ⟨out1, h1⟩ := hf init x (List.mem_cons_self _ _)
    obtain ⟨out2, h2⟩ := ih (fun acc x hx => hf acc x (List.mem_cons_of_mem _ hx)) out1
    exact ⟨out2, by simp [efoldl, h1, ebind_ok, h2]⟩

/-- `get-endpoint` never throws on a defined non-null document. -/
theorem getEndpoint_total (doc : JVal) (hd : doc ≠ JVal.null) (p m : String) :
    ∃ r, getEndpoint doc p m = .ok r := by
  simp only [getEndpoint, jsGet_eq_of_ne_null doc hd, ebind_ok]
  cases ht : truthyOpt (jsGetOpt (jsGetOpt (some doc) "paths") p) with
  | false =>
    simp only [ht, Bool.not_false, if_true]
    exact ⟨_, rfl⟩
  | true =>
    obtain ⟨pi, hpi, hpit⟩ := truthyOpt_true_elim _ ht
    have hpin : pi ≠ JVal.null := by
      intro he; rw [he] at hpit; exact absurd hpit (by decide)
    simp only [ht, Bool.not_true, if_false, hpi, jsGet_eq_of_ne_null pi hpin, ebind_ok]
    cases hop : truthyOpt (jsGetOpt (some pi) (jsLower m)) with
    | false =>
      simp only [hop, Bool.not_false, if_true]
      exact ⟨_, rfl⟩
    | true =>
      obtain ⟨op, hopv, hopt⟩ := truthyOpt_true_elim _ hop
      obtain ⟨j, hj⟩ := endpointRecord_ok p m op hopt
      simp only [hop, Bool.not_true, if_false, hopv, hj, ebind_ok]
      exact ⟨_, rfl⟩

/-- `get-request-body` never throws on a defined non-null document. -/
theorem getRequestBody_total (doc : JVal) (hd : doc ≠ JVal.null) (p m : String) :
    ∃ r, getRequestBody doc p m = .ok r := by
  simp only [getRequestBody, jsGet_eq_of_ne_null doc hd, ebind_ok]
  cases ht : truthyOpt (jsGetOpt (jsGetOpt (some doc) "paths") p) with
  | false =>
    simp only [ht, Bool.not_false, if_true]
    exact ⟨_, rfl⟩
  | true =>
    obtain ⟨pi, hpi, hpit⟩ := truthyOpt_true_elim _ ht
    have hpin : pi ≠ JVal.null := by
      intro he; rw [he] at hpit; exact absurd hpit (by decide)
    simp only [ht, Bool.not_true, if_false, hpi, jsGet_eq_of_ne_null pi hpin, ebind_ok]
    cases hop : truthyOpt (jsGetOpt (some pi) (jsLower m)) with
    | false =>
      simp only [hop, Bool.not_false, if_true]
      exact ⟨_, rfl⟩
    | true =>
      obtain ⟨op, hopv, hopt⟩ := truthyOpt_true_elim _ hop
      have hopn : op ≠ JVal.null := by
        intro he; rw [he] at hopt; exact absurd hopt (by decide)
      simp only [hop, Bool.not_true, if_false, hopv, jsGet_eq_of_ne_null op hopn,
        ebind_ok]
      cases hrb : truthyOpt (jsGetOpt (some op) "requestBody") with
      | false =>
        simp only [hrb, Bool.not_false, if_true]
        exact ⟨_, rfl⟩
      | true =>
        simp only [hrb, Bool.not_true, if_false]
        exact ⟨_, rfl⟩

/-- `get-response-schema` never throws on a defined non-null document. -/
theorem getResponseSchema_total (doc : JVal) (hd : doc ≠ JVal.null) (p m sc : String) :
    ∃ r, getResponseSchema doc p m sc = .ok r := by
  simp only [getResponseSchema, jsGet_eq_of_ne_null doc hd, ebind_ok]
  cases ht : truthyOpt (jsGetOpt (jsGetOpt (some doc) "paths") p) with
  | false =>
    simp only [ht, Bool.not_false, if_true]
    exact ⟨_, rfl⟩
  | true =>
    obtain ⟨pi, hpi, hpit⟩ := truthyOpt_true_elim _ ht
    have hpin : pi ≠ JVal.null := by
      intro he; rw [he] at hpit; exact absurd hpit (by decide)
    simp only [ht, Bool.not_true, if_false, hpi, jsGet_eq_of_ne_null pi hpin, ebind_ok]
    cases hop : truthyOpt (jsGetOpt (some pi) (jsLower m)) with
    | false =>
      simp only [hop, Bool.not_false, if_true]
      exact ⟨_, rfl⟩
    | true =>
      obtain ⟨op, hopv, hopt⟩ := truthyOpt_true_elim _ hop
      have hopn : op ≠ JVal.null := by
        intro he; rw [he] at hopt; exact absurd hopt (by decide)
      simp only [hop, Bool.not_true, if_false, hopv, jsGet_eq_of_ne_null op hopn,
        ebind_ok]
      cases hrs : truthyOpt (jsGetOpt (some op) "responses") with
      | false =>
        simp only [hrs, Bool.not_false, if_true]
        exact ⟨_, rfl⟩
      | true =>
        obtain ⟨rv, hrv, hrvt⟩ := truthyOpt_true_elim _ hrs
        have hrvn : rv ≠ JVal.null := by
          intro he; rw [he] at hrvt; exact absurd hrvt (by decide)
        simp only [hrs, Bool.not_true, if_false, hrv, jsGet_eq_of_ne_null rv hrvn,
          ebind_ok]
        cases hresp : truthyOpt (jsOr (jsGetOpt (some rv) sc) (jsGetOpt (some rv) "default")) with
        | false =>
          obtain ⟨ks, hks⟩ := jsKeys_ok_of_ne_null rv hrvn
          simp only [hresp, Bool.not_false, if_true, hks, ebind_ok]
          exact ⟨_, rfl⟩
        | true =>
          simp only [hresp, Bool.not_true, if_false]
          exact ⟨_, rfl⟩

/-- `list-components` never throws on a defined non-null document. -/
theorem listComponents_total (doc : JVal) (hd : doc ≠ JVal.null) :
    ∃ r, listComponents doc = .ok r := by
  simp only [listComponents, jsGet_eq_of_ne_null doc hd, ebind_ok]
  obtain ⟨cv, hcv, hcvn⟩ := jsOr_default_ne_null (jsGetOpt (some doc) "components") []
  obtain ⟨es, hes⟩ := jsEntries_ok_of_ne_null cv hcvn
  rw [hcv, hes, ebind_ok]
  obtain ⟨out, hout⟩ := efoldl_ok (fun acc tv =>
    if tv.2.truthy && jsTypeofObject tv.2 then
      ebind (jsKeys (some tv.2)) fun ks =>
      Except.ok (objSet acc tv.1 (.arr (ks.map JVal.str)))
    else .ok acc) es (fun acc tv htv => by
    cases hg : (tv.2.truthy && jsTypeofObject tv.2 : Bool) with
    | false =>
      simp only [hg]
      exact ⟨_, by rw [if_neg (by decide)]⟩
    | true =>
      have htv2 : tv.2 ≠ JVal.null := by
        intro he
        rw [he] at hg
        exact absurd hg (by decide)
      obtain ⟨ks, hks⟩ := jsKeys_ok_of_ne_null tv.2 htv2
      simp only [hg]
      exact ⟨_, by rw [if_pos trivial, hks, ebind_ok]⟩) []
  rw [hout, ebind_ok]
  exact ⟨_, rfl⟩

/-- `get-component` never throws on a defined non-null document. -/
theorem getComponent_total (doc : JVal) (hd : doc ≠ JVal.null) (t n : String) :
    ∃ r, getComponent doc t n = .ok r := by
  simp only [getComponent, jsGet_eq_of_ne_null doc hd, ebind_ok]
  obtain ⟨cv, hcv, hcvn⟩ := jsOr_default_ne_null (jsGetOpt (some doc) "components") []
  rw [hcv, jsGet_eq_of_ne_null cv hcvn, ebind_ok]
  cases hct : truthyOpt (jsGetOpt (some cv) t) with
  | false =>
    obtain ⟨ks, hks⟩ := jsKeys_ok_of_ne_null cv hcvn
    simp only [hct, Bool.not_false, if_true, hks, ebind_ok]
    exact ⟨_, rfl⟩
  | true =>
    obtain ⟨tv, htv, htvt⟩ := truthyOpt_true_elim _ hct
    have htvn : tv ≠ JVal.null := by
      intro he; rw [he] at htvt; exact absurd htvt (by decide)
    simp only [hct, Bool.not_true, if_false, htv, jsGet_eq_of_ne_null tv htvn, ebind_ok]
    cases hcn : truthyOpt (jsGetOpt (some tv) n) with
    | false =>
      obtain ⟨ks, hks⟩ := jsKeys_ok_of_ne_null tv htvn
      simp only [hcn, Bool.not_false, if_true, hks, ebind_ok]
      exact ⟨_, rfl⟩
    | true =>
      simp only [hcn, Bool.not_true, if_false]
      exact ⟨_, rfl⟩

theorem lookupField_mem (fs : List (String × JVal)) (k : String) (v : JVal)
    (h : lookupField fs k = some v) : (k, v) ∈ fs := by
  induction fs with
  | nil => simp [lookupField] at h
  | cons kv rest ih =>
    by_cases hk : kv.1 = k
    · rw [show lookupField (kv :: rest) k = if kv.1 = k then some kv.2 else lookupField rest k
        from rfl, if_pos hk] at h
      have : kv = (k, v) := by
        cases kv
        simp only [Option.some.injEq] at h
        simp_all
      rw [← this]
      exact List.mem_cons_self _ _
    · rw [show lookupField (kv :: rest) k = if kv.1 = k then some kv.2 else lookupField rest k
        from rfl, if_neg hk] at h
      exact List.mem_cons_of_mem _ (ih h)

theorem mem_keys_lookup (fs : List (String × JVal)) (k : String)
    (h : k ∈ fs.map Prod.fst) : ∃ v, lookupField fs k = some v := by
  induction fs with
  | nil => simp at h
  | cons kv rest ih =>
    by_cases hk : kv.1 = k
    · exact ⟨kv.2, by
        rw [show lookupField (kv :: rest) k = if kv.1 = k then some kv.2 else lookupField rest k
          from rfl, if_pos hk]⟩
    · have h' : k ∈ rest.map Prod.fst := by
        rw [List.map_cons] at h
        rcases List.mem_cons.mp h with he | hm
        · exact absurd he.symm hk
        · exact hm
      obtain ⟨v, hv⟩ := ih h'
      exact ⟨v, by
        rw [show lookupField (kv :: rest) k = if kv.1 = k then some kv.2 else lookupField rest k
          from rfl, if_neg hk, hv]⟩

theorem ne_null_of_isNullV_false (v : JVal) (h : isNullV v = false) : v ≠ JVal.null := by
  intro he; rw [he] at h; exact absurd h (by decide)

theorem ne_null_of_truthy (v : JVal) (h : v.truthy = true) : v ≠ JVal.null := by
  intro he; rw [he] at h; exact absurd h (by decide)

theorem docOK_ne_null (doc : JVal) (h : docOK doc = true) : doc ≠ JVal.null := by
  intro he; rw [he] at h; exact absurd h (by decide)

/-- The `paths` value of a conventional document, when defined, is
conventional. -/
theorem docOK_paths (doc : JVal) (h : docOK doc = true) (p : JVal)
    (hp : jsGetOpt (some doc) "paths" = some p) : pathsOK p = true := by
  cases doc with
  | null => exact absurd h (by decide)
  | obj fs =>
    rw [jsGetOpt_obj] at hp
    rw [show docOK (.obj fs) =
      ((match lookupField fs "paths" with
        | some p => pathsOK p
        | none => true) &&
       (match lookupField fs "components" with
        | some c => componentsOK c
        | none => true)) from rfl, hp] at h
    exact (Bool.and_eq_true _ _ |>.mp h).1
  | arr xs =>
    simp [jsGetOpt, show parseIndex "paths" = none from by decide] at hp
  | bool b => simp [jsGetOpt] at hp
  | num n => simp [jsGetOpt] at hp
  | str s => simp [jsGetOpt] at hp

/-- The `components` value of a conventional document, when defined, is
conventional. -/
theorem docOK_components (doc : JVal) (h : docOK doc = true) (c : JVal)
    (hc : jsGetOpt (some doc) "components" = some c) : componentsOK c = true := by
  cases doc with
  | null => exact absurd h (by decide)
  | obj fs =>
    rw [jsGetOpt_obj] at hc
    rw [show docOK (.obj fs) =
      ((match lookupField fs "paths" with
        | some p => pathsOK p
        | none => true) &&
       (match lookupField fs "components" with
        | some c => componentsOK c
        | none => true)) from rfl, hc] at h
    exact (Bool.and_eq_true _ _ |>.mp h).2
  | arr xs =>
    simp [jsGetOpt, show parseIndex "components" = none from by decide] at hc
  | bool b => simp [jsGetOpt] at hc
  | num n => simp [jsGetOpt] at hc
  | str s => simp [jsGetOpt] at hc

/-- A resolved Path Item of a conventional document is conventional. -/
theorem docOK_pathItem (doc : JVal) (h : docOK doc = true) (p : String) (pi : JVal)
    (hpi : jsGetOpt (jsGetOpt (some doc) "paths") p = some pi) : pathItemOK pi = true := by
  cases hc : jsGetOpt (some doc) "paths" with
  | none => rw [hc] at hpi; simp [jsGetOpt] at hpi
  | some pv =>
    have hps := docOK_paths doc h pv hc
    rw [hc] at hpi
    cases pv with
    | obj ps =>
      rw [jsGetOpt_obj] at hpi
      have := List.all_eq_true.mp (by
        rw [show pathsOK (.obj ps) = ps.all (fun p => pathItemOK p.2) from rfl] at hps
        exact hps) _ (lookupField_mem ps p pi hpi)
      exact this
    | null => simp [jsGetOpt] at hpi
    | arr xs =>
      rw [show pathsOK (.arr xs) = false from rfl] at hps
      exact absurd hps (by decide)
    | bool b => simp [jsGetOpt] at hpi
    | num n => simp [jsGetOpt] at hpi
    | str s => simp [jsGetOpt] at hpi

/-- A truthy conventional Path Item is an object. -/
theorem pathItemOK_truthy_obj (pi : JVal) (h : pathItemOK pi = true)
    (ht : pi.truthy = true) : ∃ fs, pi = JVal.obj fs := by
  cases pi with
  | obj fs => exact ⟨fs, rfl⟩
  | null => exact absurd h (by decide)
  | bool b => exact ⟨[], by rw [show pathItemOK (.bool b) = !(JVal.bool b).truthy from rfl, ht] at h; exact absurd h (by decide)⟩
  | num n => exact ⟨[], by rw [show pathItemOK (.num n) = !(JVal.num n).truthy from rfl, ht] at h; exact absurd h (by decide)⟩
  | str s => exact ⟨[], by rw [show pathItemOK (.str s) = !(JVal.str s).truthy from rfl, ht] at h; exact absurd h (by decide)⟩
  | arr xs =>
    rw [show pathItemOK (.arr xs) = false from rfl] at h
    exact absurd h (by decide)

/-- A conventional Path Item is never `null`. -/
theorem pathItemOK_ne_null (pi : JVal) (h : pathItemOK pi = true) : pi ≠ JVal.null := by
  intro he; rw [he] at h; exact absurd h (by decide)

/-- Split a conventional Path Item object into its shared-`parameters`
clause and its per-entry conditions. -/
theorem pathItemOK_obj_elim (fs : List (String × JVal))
    (h : pathItemOK (.obj fs) = true) :
    ((match lookupField fs "parameters" with
      | some (.arr _) => true
      | some (.str _) => true
      | some v => !v.truthy
      | none => true) = true) ∧ ∀ kv ∈ fs, pathItemEntryOK kv = true := by
  have h2 := (Bool.and_eq_true _ _).mp h
  exact ⟨h2.1, List.all_eq_true.mp h2.2⟩

/-- Split one conventional Path Item entry. -/
theorem pathItemEntryOK_elim (kv : String × JVal) (h : pathItemEntryOK kv = true) :
    (methodSet.contains (jsLower kv.1) = true → kv.2 ≠ JVal.null) ∧
    (∀ fs2, kv.2 = JVal.obj fs2 → opFieldsOK fs2 = true) := by
  have h2 := (Bool.and_eq_true _ _).mp h
  constructor
  · intro hc
    have h1 := h2.1
    rw [if_pos hc] at h1
    exact ne_null_of_isNullV_false _ (by simpa using h1)
  · intro fs2 he
    have h3 := h2.2
    rw [he] at h3
    exact h3

/-- Split a conventional operation object into its four field clauses. -/
theorem opFieldsOK_elim (fs : List (String × JVal)) (h : opFieldsOK fs = true) :
    ((match lookupField fs "parameters" with
      | some (.arr xs) => xs.all fun v => !isNullV v
      | some v => !v.truthy
      | none => true) = true) ∧
    ((match lookupField fs "tags" with
      | some (.arr _) => true
      | some v => !v.truthy
      | none => true) = true) ∧
    ((match lookupField fs "requestBody" with
      | some (.obj rb) =>
        (match lookupField rb "content" with
         | some c => contentNodeOK c
         | none => true)
      | some _ => true
      | none => true) = true) ∧
    ((match lookupField fs "responses" with
      | some (.obj rs) => rs.all fun p => respValOK p.2
      | some v => !v.truthy
      | none => true) = true) := by
  have h1 := (Bool.and_eq_true _ _).mp h
  have h2 := (Bool.and_eq_true _ _).mp h1.1
  have h3 := (Bool.and_eq_true _ _).mp h2.1
  exact ⟨h3.1, h3.2, h2.2, h1.2⟩

/-- The entry values of a truthy conventional category/content map are
non-null. -/
theorem catValOK_entries (v : JVal) (es : List (String × JVal))
    (h : catValOK v = true) (hv : v ≠ JVal.null)
    (hes : jsEntries (some v) = .ok es) : ∀ e ∈ es, e.2 ≠ JVal.null := by
  cases v with
  | obj fsv =>
    simp only [jsEntries, Except.ok.injEq] at hes
    intro e he
    rw [← hes] at he
    have hall := List.all_eq_true.mp
      (show fsv.all (fun e => !isNullV e.2) = true from h) e he
    exact ne_null_of_isNullV_false _ (by simpa using hall)
  | arr xs => exact absurd h (by simp [catValOK])
  | null => exact absurd rfl hv
  | bool b =>
    simp only [jsEntries, Except.ok.injEq] at hes
    intro e he
    rw [← hes] at he
    cases he
  | num n =>
    simp only [jsEntries, Except.ok.injEq] at hes
    intro e he
    rw [← hes] at he
    cases he
  | str s =>
    simp only [jsEntries, Except.ok.injEq] at hes
    intro e he
    rw [← hes] at he
    cases he

/-- Same statement for content maps (the predicate is the same shape). -/
theorem contentNodeOK_entries (v : JVal) (es : List (String × JVal))
    (h : contentNodeOK v = true) (hv : v ≠ JVal.null)
    (hes : jsEntries (some v) = .ok es) : ∀ e ∈ es, e.2 ≠ JVal.null := by
  cases v with
  | obj fsv =>
    simp only [jsEntries, Except.ok.injEq] at hes
    intro e he
    rw [← hes] at he
    have hall := List.all_eq_true.mp
      (show fsv.all (fun e => !isNullV e.2) = true from h) e he
    exact ne_null_of_isNullV_false _ (by simpa using hall)
  | arr xs => exact absurd h (by simp [contentNodeOK])
  | null => exact absurd rfl hv
  | bool b =>
    simp only [jsEntries, Except.ok.injEq] at hes
    intro e he
    rw [← hes] at he
    cases he
  | num n =>
    simp only [jsEntries, Except.ok.injEq] at hes
    intro e he
    rw [← hes] at he
    cases he
  | str s =>
    simp only [jsEntries, Except.ok.injEq] at hes
    intro e he
    rw [← hes] at he
    cases he

/-- The example loop never throws when the content entries are
non-null. -/
theorem mediaExamples_ok (es : List (String × JVal))
    (h : ∀ e ∈ es, e.2 ≠ JVal.null) : ∃ r, mediaExamples es = .ok r := by
  refine efoldl_ok mediaStep es (fun acc e he => ?_) []
  simp only [mediaStep, jsGet_eq_of_ne_null e.2 (h e he), ebind_ok]
  cases hex : truthyOpt (jsGetOpt (some e.2) "examples") with
  | true => exact ⟨_, by rw [if_pos rfl]⟩
  | false =>
    rw [if_neg (by decide)]
    cases hex2 : truthyOpt (jsGetOpt (some e.2) "example") with
    | true => exact ⟨_, by rw [if_pos rfl]⟩
    | false => exact ⟨_, by rw [if_neg (by decide)]⟩

/-- The security-scheme summary never throws on a non-null scheme. -/
theorem securitySchemeSummary_ok (s : JVal) (hs : s ≠ JVal.null) :
    ∃ j, securitySchemeSummary s = .ok j := by
  obtain ⟨fv, hfv, hfvn⟩ :=
    jsOr_default_ne_null (jsGetOpt (some s) "flows") []
  obtain ⟨ks, hks⟩ := jsKeys_ok_of_ne_null fv hfvn
  simp only [securitySchemeSummary, jsGet_eq_of_ne_null s hs, ebind_ok, hfv, hks]
  exact ⟨_, rfl⟩

/-- The shared Path-Item `parameters` spread never throws on a
conventional Path Item object. -/
theorem pathItemParams_iter (fs : List (String × JVal))
    (hp : (match lookupField fs "parameters" with
      | some (.arr _) => true
      | some (.str _) => true
      | some v => !v.truthy
      | none => true) = true) :
    ∃ xs, jsIter (jsOr (lookupField fs "parameters") (some (.arr []))) = .ok xs := by
  cases hl : lookupField fs "parameters" with
  | none => exact ⟨[], by rw [jsOr, show truthyOpt none = false from rfl]; simp [jsIter]⟩
  | some v =>
    cases v with
    | arr xs => exact ⟨xs, by rw [jsOr, show truthyOpt (some (.arr xs)) = true from rfl]; simp [jsIter]⟩
    | str s =>
      cases hst : (JVal.str s).truthy with
      | true =>
        refine ⟨s.data.map fun c => .str (String.mk [c]), ?_⟩
        rw [jsOr, truthyOpt_some, hst]
        simp [jsIter]
      | false =>
        refine ⟨[], ?_⟩
        rw [jsOr, truthyOpt_some, hst]
        simp [jsIter]
    | null => exact ⟨[], by rw [jsOr, show truthyOpt (some JVal.null) = false from rfl]; simp [jsIter]⟩
    | bool b =>
      rw [hl] at hp
      have hb : (JVal.bool b).truthy = false := by simpa using hp
      exact ⟨[], by rw [jsOr, truthyOpt_some, hb]; simp [jsIter]⟩
    | num n =>
      rw [hl] at hp
      have hn : (JVal.num n).truthy = false := by simpa using hp
      exact ⟨[], by rw [jsOr, truthyOpt_some, hn]; simp [jsIter]⟩
    | obj fs2 =>
      rw [hl] at hp
      have hfalse : (JVal.obj fs2).truthy = false := by simpa using hp
      rw [truthy_obj] at hfalse
      exact absurd hfalse (by decide)

/-- The operation `parameters` spread never throws on a conventional
operation object, and the elements are non-null. -/
theorem opParamsField_iter (fs : List (String × JVal))
    (h : (match lookupField fs "parameters" with
      | some (.arr xs) => xs.all fun v => !isNullV v
      | some v => !v.truthy
      | none => true) = true) :
    ∃ xs, jsIter (jsOr (lookupField fs "parameters") (some (.arr []))) = .ok xs ∧
      ∀ v ∈ xs, v ≠ JVal.null := by
  cases hl : lookupField fs "parameters" with
  | none =>
    refine ⟨[], ?_, by intro v hv; cases hv⟩
    rw [jsOr, show truthyOpt none = false from rfl]
    simp [jsIter]
  | some v =>
    cases v with
    | arr xs =>
      rw [hl] at h
      refine ⟨xs, ?_, ?_⟩
      · rw [jsOr, truthyOpt_some, truthy_arr]
        simp [jsIter]
      · intro x hx
        have hall := List.all_eq_true.mp
          (show xs.all (fun v => !isNullV v) = true from h) x hx
        exact ne_null_of_isNullV_false _ (by simpa using hall)
    | null =>
      refine ⟨[], ?_, by intro v hv; cases hv⟩
      rw [jsOr, show truthyOpt (some JVal.null) = false from rfl]
      simp [jsIter]
    | bool b =>
      rw [hl] at h
      have hb : (JVal.bool b).truthy = false := by simpa using h
      refine ⟨[], ?_, by intro v hv; cases hv⟩
      rw [jsOr, truthyOpt_some, hb]
      simp [jsIter]
    | num n =>
      rw [hl] at h
      have hn : (JVal.num n).truthy = false := by simpa using h
      refine ⟨[], ?_, by intro v hv; cases hv⟩
      rw [jsOr, truthyOpt_some, hn]
      simp [jsIter]
    | str s =>
      rw [hl] at h
      have hs : (JVal.str s).truthy = false := by simpa using h
      refine ⟨[], ?_, by intro v hv; cases hv⟩
      rw [jsOr, truthyOpt_some, hs]
      simp [jsIter]
    | obj fs2 =>
      rw [hl] at h
      have hfalse : (JVal.obj fs2).truthy = false := by simpa using h
      rw [truthy_obj] at hfalse
      exact absurd hfalse (by decide)

/-- A truthy operation `parameters` value is an array on a conventional
operation object. -/
theorem opParams_truthy_arr (fs : List (String × JVal))
    (h : (match lookupField fs "parameters" with
      | some (.arr xs) => xs.all fun v => !isNullV v
      | some v => !v.truthy
      | none => true) = true)
    (ht : truthyOpt (lookupField fs "parameters") = true) :
    ∃ xs, lookupField fs "parameters" = some (.arr xs) ∧ ∀ v ∈ xs, v ≠ JVal.null := by
  obtain ⟨v, hv, hvt⟩ := truthyOpt_true_elim _ ht
  cases v with
  | arr xs =>
    rw [hv] at h
    refine ⟨xs, hv, ?_⟩
    intro x hx
    have hall := List.all_eq_true.mp
      (show xs.all (fun v => !isNullV v) = true from h) x hx
    exact ne_null_of_isNullV_false _ (by simpa using hall)
  | null => exact absurd hvt (by decide)
  | bool b =>
    rw [hv] at h
    have := show (JVal.bool b).truthy = false by simpa using h
    rw [hvt] at this
    exact absurd this (by decide)
  | num n =>
    rw [hv] at h
    have := show (JVal.num n).truthy = false by simpa using h
    rw [hvt] at this
    exact absurd this (by decide)
  | str s =>
    rw [hv] at h
    have := show (JVal.str s).truthy = false by simpa using h
    rw [hvt] at this
    exact absurd this (by decide)
  | obj fs2 =>
    rw [hv] at h
    have := show (JVal.obj fs2).truthy = false by simpa using h
    rw [hvt] at this
    exact absurd this (by decide)

/-- A truthy non-index property read only succeeds on an object
receiver. -/
theorem jsGetOpt_some_obj (v : JVal) (k : String) (hk : parseIndex k = none)
    (h : truthyOpt (jsGetOpt (some v) k) = true) : ∃ fs, v = JVal.obj fs := by
  cases v with
  | obj fs => exact ⟨fs, rfl⟩
  | null => exact absurd h (by simp [jsGetOpt, truthyOpt])
  | arr xs =>
    rw [show jsGetOpt (some (.arr xs)) k = (parseIndex k).bind (fun i => xs.get? i)
      from rfl, hk] at h
    exact absurd h (by simp [truthyOpt])
  | bool b => exact absurd h (by simp [jsGetOpt, truthyOpt])
  | num n => exact absurd h (by simp [jsGetOpt, truthyOpt])
  | str s => exact absurd h (by simp [jsGetOpt, truthyOpt])

/-- The category value resolved from a conventional `components` value is
conventional. -/
theorem componentsOK_cat (c : JVal) (h : componentsOK c = true) (t : String) (v : JVal)
    (hv : jsGetOpt (some c) t = some v) : catValOK v = true := by
  cases c with
  | obj cats =>
    rw [jsGetOpt_obj] at hv
    exact List.all_eq_true.mp
      (show cats.all (fun c => catValOK c.2) = true from h) _ (lookupField_mem cats t v hv)
  | arr xs =>
    rw [show componentsOK (.arr xs) = false from rfl] at h
    exact absurd h (by decide)
  | null => simp [jsGetOpt] at hv
  | bool b => simp [jsGetOpt] at hv
  | num n => simp [jsGetOpt] at hv
  | str s => simp [jsGetOpt] at hv

/-- The per-path method map of `list-endpoints` never throws on a
conventional Path Item. -/
theorem listEndpointsMethods_ok (pi : JVal) (h : pathItemOK pi = true) :
    ∃ ms, listEndpointsMethods pi = .ok ms := by
  cases pi with
  | null => exact absurd h (by decide)
  | arr xs =>
    rw [show pathItemOK (.arr xs) = false from rfl] at h
    exact absurd h (by decide)
  | bool b => exact ⟨[], rfl⟩
  | num n => exact ⟨[], rfl⟩
  | str s => exact ⟨[], rfl⟩
  | obj fs =>
    obtain ⟨hparams, hentries⟩ := pathItemOK_obj_elim fs h
    simp only [listEndpointsMethods, jsKeys, jsEntries, ebind_ok]
    refine efoldl_ok _ ((fs.map Prod.fst).filter fun k => methodSet.contains (jsLower k))
      (fun acc m hm => ?_) []
    have hmk : m ∈ fs.map Prod.fst := (List.mem_filter.mp hm).1
    have hmc := (List.mem_filter.mp hm).2
    obtain ⟨v, hv⟩ := mem_keys_lookup fs m hmk
    have hmem := lookupField_mem fs m v hv
    have hvn : v ≠ JVal.null := (pathItemEntryOK_elim (m, v) (hentries _ hmem)).1 hmc
    refine ⟨objSet acc (jsUpper m) (endpointSummaryOf v), ?_⟩
    show (ebind (jsGet (some (.obj fs)) m) fun operation =>
      ebind (summaryEntry operation) fun s => Except.ok (objSet acc (jsUpper m) s)) = _
    rw [jsGet_obj, ebind_ok, hv, summaryEntry_spec v hvn, ebind_ok]

/-- `list-endpoints` never throws on a conventional document. -/
theorem listEndpoints_total (doc : JVal) (h : docOK doc = true) :
    ∃ r, listEndpoints doc = .ok r := by
  have hd := docOK_ne_null doc h
  simp only [listEndpoints, jsGet_eq_of_ne_null doc hd, ebind_ok]
  obtain ⟨pv, hpv, hpvn⟩ := jsOr_default_ne_null (jsGetOpt (some doc) "paths") []
  obtain ⟨pes, hpes⟩ := jsEntries_ok_of_ne_null pv hpvn
  rw [hpv, hpes, ebind_ok]
  have hall : ∀ e ∈ pes, pathItemOK e.2 = true := by
    cases htp : truthyOpt (jsGetOpt (some doc) "paths") with
    | false =>
      rw [jsOr, htp, if_neg (by decide)] at hpv
      have hpv2 : JVal.obj [] = pv := by simpa using hpv
      rw [← hpv2] at hpes
      have : ([] : List (String × JVal)) = pes := by simpa [jsEntries] using hpes
      rw [← this]
      intro e he
      cases he
    | true =>
      rw [jsOr, htp, if_pos rfl] at hpv
      have hps := docOK_paths doc h pv hpv
      have hpt : pv.truthy = true := by
        rw [hpv, truthyOpt_some] at htp
        exact htp
      cases pv with
      | obj ps =>
        have : ps = pes := by simpa [jsEntries] using hpes
        rw [← this]
        exact List.all_eq_true.mp
          (show ps.all (fun p => pathItemOK p.2) = true from hps)
      | null => exact absurd hpt (by decide)
      | arr xs =>
        rw [show pathsOK (.arr xs) = false from rfl] at hps
        exact absurd hps (by decide)
      | bool b =>
        rw [show pathsOK (.bool b) = !(JVal.bool b).truthy from rfl, hpt] at hps
        exact absurd hps (by decide)
      | num n =>
        rw [show pathsOK (.num n) = !(JVal.num n).truthy from rfl, hpt] at hps
        exact absurd hps (by decide)
      | str s =>
        rw [show pathsOK (.str s) = !(JVal.str s).truthy from rfl, hpt] at hps
        exact absurd hps (by decide)
  obtain ⟨pm, hpm⟩ := efoldl_ok
    (fun acc (pv : String × JVal) =>
      ebind (listEndpointsMethods pv.2) fun ms =>
      Except.ok (objSet acc pv.1 (JVal.obj ms))) pes
    (fun acc e he => by
      obtain ⟨ms, hms⟩ := listEndpointsMethods_ok e.2 (hall e he)
      refine ⟨objSet acc e.1 (.obj ms), ?_⟩
      show (ebind (listEndpointsMethods e.2) fun ms =>
        Except.ok (objSet acc e.1 (.obj ms))) = _
      rw [hms, ebind_ok]) []
  rw [hpm, ebind_ok]
  exact ⟨_, rfl⟩

/-- `list-security-schemes` never throws on a conventional document. -/
theorem listSecuritySchemes_total (doc : JVal) (h : docOK doc = true) :
    ∃ r, listSecuritySchemes doc = .ok r := by
  have hd := docOK_ne_null doc h
  simp only [listSecuritySchemes, jsGet_eq_of_ne_null doc hd, ebind_ok]
  obtain ⟨sv, hsv, hsvn⟩ :=
    jsOr_default_ne_null (jsGetOpt (jsGetOpt (some doc) "components") "securitySchemes") []
  obtain ⟨ses, hses⟩ := jsEntries_ok_of_ne_null sv hsvn
  rw [hsv, hses, ebind_ok]
  have hall : ∀ e ∈ ses, e.2 ≠ JVal.null := by
    cases hts : truthyOpt (jsGetOpt (jsGetOpt (some doc) "components") "securitySchemes") with
    | false =>
      rw [jsOr, hts, if_neg (by decide)] at hsv
      have hsv2 : JVal.obj [] = sv := by simpa using hsv
      rw [← hsv2] at hses
      have : ([] : List (String × JVal)) = ses := by simpa [jsEntries] using hses
      rw [← this]
      intro e he
      cases he
    | true =>
      rw [jsOr, hts, if_pos rfl] at hsv
      cases hcv : jsGetOpt (some doc) "components" with
      | none => rw [hcv] at hsv; simp [jsGetOpt] at hsv
      | some c =>
        have hcok := docOK_components doc h c hcv
        rw [hcv] at hsv
        have hcat := componentsOK_cat c hcok "securitySchemes" sv hsv
        exact catValOK_entries sv ses hcat hsvn hses
  obtain ⟨res, hres⟩ := efoldl_ok
    (fun acc (ns : String × JVal) =>
      ebind (securitySchemeSummary ns.2) fun summ =>
      Except.ok (objSet acc ns.1 summ)) ses
    (fun acc e he => by
      obtain ⟨j, hj⟩ := securitySchemeSummary_ok e.2 (hall e he)
      refine ⟨objSet acc e.1 j, ?_⟩
      show (ebind (securitySchemeSummary e.2) fun summ =>
        Except.ok (objSet acc e.1 summ)) = _
      rw [hj, ebind_ok]) []
  rw [hres, ebind_ok]
  cases hemp : res.isEmpty with
  | true => exact ⟨_, by rw [if_pos rfl]⟩
  | false => exact ⟨_, by rw [if_neg (by decide)]⟩

/-- `get-path-parameters` never throws on a conventional document. -/
theorem getPathParameters_total (doc : JVal) (h : docOK doc = true) (p : String)
    (m : Option String) : ∃ r, getPathParameters doc p m = .ok r := by
  have hd := docOK_ne_null doc h
  simp only [getPathParameters, jsGet_eq_of_ne_null doc hd, ebind_ok]
  cases ht : truthyOpt (jsGetOpt (jsGetOpt (some doc) "paths") p) with
  | false =>
    simp only [ht, Bool.not_false, if_true]
    exact ⟨_, rfl⟩
  | true =>
    obtain ⟨pi, hpi, hpit⟩ := truthyOpt_true_elim _ ht
    have hpio := docOK_pathItem doc h p pi hpi
    obtain ⟨pfs, hpfs⟩ := pathItemOK_truthy_obj pi hpio hpit
    subst hpfs
    obtain ⟨hparams, hentries⟩ := pathItemOK_obj_elim pfs hpio
    obtain ⟨base, hbase⟩ := pathItemParams_iter pfs hparams
    simp only [ht, Bool.not_true, if_false, hpi, jsGet_obj, ebind_ok, hbase]
    rw [if_neg (show ¬(false = true) by decide)]
    have hX : ∃ ps2 : List JVal,
        ((if strTruthy m then
          (if !truthyOpt (lookupField pfs (jsLower (strInterp m))) then Except.ok base
           else
             ebind (jsGet (lookupField pfs (jsLower (strInterp m))) "parameters")
               fun mparams =>
             if !truthyOpt mparams then Except.ok base
             else ebind (jsIter mparams) fun more => Except.ok (base ++ more))
        else Except.ok base) : Except String (List JVal)) = .ok ps2 := by
      cases hsm : strTruthy m with
      | false => exact ⟨base, by rw [if_neg (by decide)]⟩
      | true =>
        rw [if_pos rfl]
        cases hop : truthyOpt (lookupField pfs (jsLower (strInterp m))) with
        | false => exact ⟨base, by rw [if_pos (by decide)]⟩
        | true =>
          obtain ⟨opv, hopv, hopt⟩ := truthyOpt_true_elim _ hop
          have hopn : opv ≠ JVal.null := ne_null_of_truthy opv hopt
          rw [if_neg (by decide), hopv,
            jsGet_eq_of_ne_null opv hopn, ebind_ok]
          cases hmp : truthyOpt (jsGetOpt (some opv) "parameters") with
          | false => exact ⟨base, by rw [if_pos (by decide)]⟩
          | true =>
            obtain ⟨ofs, hofs⟩ := jsGetOpt_some_obj opv "parameters"
              (by decide) hmp
            subst hofs
            have hentry := (pathItemEntryOK_elim (jsLower (strInterp m), .obj ofs)
              (hentries _ (lookupField_mem pfs _ _ hopv))).2 ofs rfl
            have hcl := (opFieldsOK_elim ofs hentry).1
            rw [jsGetOpt_obj] at hmp
            obtain ⟨mps, hmps, _⟩ := opParams_truthy_arr ofs hcl hmp
            refine ⟨base ++ mps, ?_⟩
            rw [if_neg (by decide)]
            rw [jsGetOpt_obj, hmps]
            rw [show jsIter (some (.arr mps)) = .ok mps from rfl, ebind_ok]
    obtain ⟨ps2, hX2⟩ := hX
    rw [hX2, ebind_ok]
    cases hemp : ps2.isEmpty with
    | true => exact ⟨_, by rw [if_pos rfl]⟩
    | false => exact ⟨_, by rw [if_neg (by decide)]⟩

/-- A defined non-index property read comes from an object receiver. -/
theorem jsGetOpt_some_obj2 (v : JVal) (k : String) (hk : parseIndex k = none) (w : JVal)
    (hs : jsGetOpt (some v) k = some w) :
    ∃ fs, v = JVal.obj fs ∧ lookupField fs k = some w := by
  cases v with
  | obj fs => exact ⟨fs, rfl, by rw [jsGetOpt_obj] at hs; exact hs⟩
  | null => simp [jsGetOpt] at hs
  | arr xs =>
    rw [show jsGetOpt (some (.arr xs)) k = (parseIndex k).bind (fun i => xs.get? i)
      from rfl, hk] at hs
    simp at hs
  | bool b => simp [jsGetOpt] at hs
  | num n => simp [jsGetOpt] at hs
  | str s => simp [jsGetOpt] at hs

/-- An operation resolved through `paths?.[p]?.[m]` on a conventional
document has conventional fields whenever it is an object. -/
theorem docOK_operation (doc : JVal) (h : docOK doc = true) (pk mk : String) (opv : JVal)
    (hop : jsGetOpt (jsGetOpt (jsGetOpt (some doc) "paths") pk) mk = some opv) :
    ∀ ofs, opv = JVal.obj ofs → opFieldsOK ofs = true := by
  intro ofs hofs
  cases hpi0 : jsGetOpt (jsGetOpt (some doc) "paths") pk with
  | none => rw [hpi0] at hop; simp [jsGetOpt] at hop
  | some pi =>
    have hpio := docOK_pathItem doc h pk pi hpi0
    rw [hpi0] at hop
    cases pi with
    | obj pfs =>
      rw [jsGetOpt_obj] at hop
      have hmem := lookupField_mem pfs mk opv hop
      exact (pathItemEntryOK_elim (mk, opv)
        ((pathItemOK_obj_elim pfs hpio).2 _ hmem)).2 ofs hofs
    | arr xs =>
      rw [show pathItemOK (.arr xs) = false from rfl] at hpio
      exact absurd hpio (by decide)
    | null => exact absurd hpio (by decide)
    | bool b => simp [jsGetOpt] at hop
    | num n => simp [jsGetOpt] at hop
    | str s => simp [jsGetOpt] at hop

/-- A truthy `responses` value is an object of safe response values on a
conventional operation object. -/
theorem opResponses_obj (fs : List (String × JVal))
    (h : (match lookupField fs "responses" with
      | some (.obj rs) => rs.all fun p => respValOK p.2
      | some v => !v.truthy
      | none => true) = true)
    (rv : JVal) (hrv : lookupField fs "responses" = some rv) (hrvt : rv.truthy = true) :
    ∃ rs, rv = JVal.obj rs ∧ ∀ e ∈ rs, respValOK e.2 = true := by
  cases rv with
  | obj rs =>
    rw [hrv] at h
    exact ⟨rs, rfl, List.all_eq_true.mp
      (show rs.all (fun p => respValOK p.2) = true from h)⟩
  | null => exact absurd hrvt (by decide)
  | arr xs =>
    rw [hrv] at h
    have := show (JVal.arr xs).truthy = false by simpa using h
    rw [hrvt] at this
    exact absurd this (by decide)
  | bool b =>
    rw [hrv] at h
    have := show (JVal.bool b).truthy = false by simpa using h
    rw [hrvt] at this
    exact absurd this (by decide)
  | num n =>
    rw [hrv] at h
    have := show (JVal.num n).truthy = false by simpa using h
    rw [hrvt] at this
    exact absurd this (by decide)
  | str s =>
    rw [hrv] at h
    have := show (JVal.str s).truthy = false by simpa using h
    rw [hrvt] at this
    exact absurd this (by decide)

/-- The response-mode continuation never throws when every possible
response object is safe. -/
theorem responseExamplesFor_ok (m p : String) (sc : Option String) (ks : List String)
    (ro : Option JVal) (hro : ∀ v, ro = some v → respValOK v = true) :
    ∃ r, responseExamplesFor m p sc ks ro = .ok r := by
  simp only [responseExamplesFor]
  cases hrt : truthyOpt ro with
  | false => exact ⟨_, by rw [if_pos (by decide)]⟩
  | true =>
    rw [if_neg (by decide)]
    obtain ⟨rov, hrov, hrovt⟩ := truthyOpt_true_elim _ hrt
    have hron := ne_null_of_truthy rov hrovt
    rw [hrov, jsGet_eq_of_ne_null rov hron, ebind_ok]
    cases hct : truthyOpt (jsGetOpt (some rov) "content") with
    | false => exact ⟨_, by rw [if_pos (by decide)]⟩
    | true =>
      rw [if_neg (by decide)]
      obtain ⟨cv, hcv, hcvt⟩ := truthyOpt_true_elim _ hct
      have hcvn := ne_null_of_truthy cv hcvt
      obtain ⟨ces, hces⟩ := jsEntries_ok_of_ne_null cv hcvn
      rw [hcv, hces, ebind_ok]
      obtain ⟨rof, hrof, hlc⟩ := jsGetOpt_some_obj2 rov "content" (by decide) cv hcv
      have hrval := hro rov hrov
      rw [hrof] at hrval
      have hcn : contentNodeOK cv = true := by
        rw [show respValOK (.obj rof) =
          (match lookupField rof "content" with
           | some c => contentNodeOK c
           | none => true) from rfl, hlc] at hrval
        exact hrval
      obtain ⟨mev, hmev⟩ := mediaExamples_ok ces
        (contentNodeOK_entries cv ces hcn hcvn hces)
      rw [hmev, ebind_ok]
      cases hemp : mev.isEmpty with
      | true => exact ⟨_, by rw [if_pos rfl]⟩
      | false => exact ⟨_, by rw [if_neg (by decide)]⟩

/-- `get-examples` never throws on a conventional document. -/
theorem getExamples_total (doc : JVal) (h : docOK doc = true) (ty : ExampleType)
    (p m sc ct cn : Option String) : ∃ r, getExamples doc ty p m sc ct cn = .ok r := by
  have hd := docOK_ne_null doc h
  cases ty with
  | component =>
    simp only [getExamples]
    cases hg : (!strTruthy ct || !strTruthy cn : Bool) with
    | true => exact ⟨_, by rw [if_pos rfl]⟩
    | false =>
      rw [if_neg (by decide), jsGet_eq_of_ne_null doc hd, ebind_ok]
      cases hcomp : truthyOpt (jsGetOpt (jsGetOpt (jsGetOpt (some doc) "components")
          (strInterp ct)) (strInterp cn)) with
      | false => exact ⟨_, by rw [if_pos (by decide)]⟩
      | true =>
        rw [if_neg (by decide)]
        obtain ⟨cvv, hcvv, hcvvt⟩ := truthyOpt_true_elim _ hcomp
        have hcvn := ne_null_of_truthy cvv hcvvt
        rw [hcvv, jsGet_eq_of_ne_null cvv hcvn, ebind_ok,
          jsGet_eq_of_ne_null cvv hcvn, ebind_ok]
        cases hfin : truthyOpt (if truthyOpt (jsGetOpt (some cvv) "examples") then
            jsGetOpt (some cvv) "examples"
          else if truthyOpt (jsGetOpt (some cvv) "example") then
            some (.obj [("default", (jsGetOpt (some cvv) "example").getD .null)])
          else some JVal.null) with
        | false => exact ⟨_, by rw [if_pos (by decide)]⟩
        | true => exact ⟨_, by rw [if_neg (by decide)]⟩
  | request =>
    simp only [getExamples, jsGet_eq_of_ne_null doc hd, ebind_ok]
    cases hg : (!strTruthy p || !strTruthy m : Bool) with
    | true => exact ⟨_, by rw [if_pos rfl]⟩
    | false =>
      rw [if_neg (by decide)]
      cases hop : truthyOpt (jsGetOpt (jsGetOpt (jsGetOpt (some doc) "paths")
          (strInterp p)) (jsLower (strInterp m))) with
      | false => exact ⟨_, by rw [if_pos (by decide)]⟩
      | true =>
        rw [if_neg (by decide)]
        obtain ⟨opv, hopv, hopt⟩ := truthyOpt_true_elim _ hop
        have hopn := ne_null_of_truthy opv hopt
        rw [hopv, jsGet_eq_of_ne_null opv hopn, ebind_ok]
        cases hrc : truthyOpt (jsGetOpt (jsGetOpt (some opv) "requestBody") "content") with
        | false => exact ⟨_, by rw [if_pos (by decide)]⟩
        | true =>
          rw [if_neg (by decide)]
          obtain ⟨cv, hcv, hcvt⟩ := truthyOpt_true_elim _ hrc
          have hcvn := ne_null_of_truthy cv hcvt
          obtain ⟨ces, hces⟩ := jsEntries_ok_of_ne_null cv hcvn
          rw [hcv, hces, ebind_ok]
          cases hrb : jsGetOpt (some opv) "requestBody" with
          | none => rw [hrb] at hcv; simp [jsGetOpt] at hcv
          | some rbv =>
            rw [hrb] at hcv
            obtain ⟨rbf, hrbf, hlc⟩ := jsGetOpt_some_obj2 rbv "content" (by decide) cv hcv
            subst hrbf
            obtain ⟨ofs, hofs, hlrb⟩ := jsGetOpt_some_obj2 opv "requestBody"
              (by decide) (.obj rbf) hrb
            have hok := docOK_operation doc h (strInterp p) (jsLower (strInterp m)) opv
              hopv ofs hofs
            have hcl := (opFieldsOK_elim ofs hok).2.2.1
            rw [hlrb] at hcl
            have hcn : contentNodeOK cv = true := by
              have hcl2 : (match lookupField rbf "content" with
                | some c => contentNodeOK c
                | none => true) = true := hcl
              rw [hlc] at hcl2
              exact hcl2
            obtain ⟨mev, hmev⟩ := mediaExamples_ok ces
              (contentNodeOK_entries cv ces hcn hcvn hces)
            rw [hmev, ebind_ok]
            cases hemp : mev.isEmpty with
            | true => exact ⟨_, by rw [if_pos rfl]⟩
            | false => exact ⟨_, by rw [if_neg (by decide)]⟩
  | response =>
    simp only [getExamples, jsGet_eq_of_ne_null doc hd, ebind_ok]
    cases hg : (!strTruthy p || !strTruthy m : Bool) with
    | true => exact ⟨_, by rw [if_pos rfl]⟩
    | false =>
      rw [if_neg (by decide)]
      cases hop : truthyOpt (jsGetOpt (jsGetOpt (jsGetOpt (some doc) "paths")
          (strInterp p)) (jsLower (strInterp m))) with
      | false => exact ⟨_, by rw [if_pos (by decide)]⟩
      | true =>
        rw [if_neg (by decide)]
        obtain ⟨opv, hopv, hopt⟩ := truthyOpt_true_elim _ hop
        have hopn := ne_null_of_truthy opv hopt
        rw [hopv, jsGet_eq_of_ne_null opv hopn, ebind_ok]
        cases hrs : truthyOpt (jsGetOpt (some opv) "responses") with
        | false => exact ⟨_, by rw [if_pos (by decide)]⟩
        | true =>
          rw [if_neg (by decide)]
          obtain ⟨rv, hrv, hrvt⟩ := truthyOpt_true_elim _ hrs
          have hrvn := ne_null_of_truthy rv hrvt
          obtain ⟨ks, hks⟩ := jsKeys_ok_of_ne_null rv hrvn
          rw [hrv, hks, ebind_ok]
          obtain ⟨ofs, hofs, hlrs⟩ := jsGetOpt_some_obj2 opv "responses"
            (by decide) rv hrv
          have hok := docOK_operation doc h (strInterp p) (jsLower (strInterp m)) opv
            hopv ofs hofs
          have hcl := (opFieldsOK_elim ofs hok).2.2.2
          obtain ⟨rs, hrsv, hall⟩ := opResponses_obj ofs hcl rv hlrs hrvt
          subst hrsv
          have hro : ∀ sel : Option JVal,
              (∀ v, sel = some v → (∃ e ∈ rs, e.2 = v)) →
              ∃ r, responseExamplesFor (strInterp m) (strInterp p) sc ks sel = .ok r := by
            intro sel hsel
            refine responseExamplesFor_ok _ _ sc ks sel (fun v hv => ?_)
            obtain ⟨e, he, hev⟩ := hsel v hv
            rw [← hev]
            exact hall e he
          cases hsc : strTruthy sc with
          | true =>
            rw [if_pos rfl, jsGet_eq_of_ne_null (.obj rs) (by simp), ebind_ok]
            refine hro _ (fun v hv => ?_)
            rw [jsGetOpt_obj] at hv
            exact ⟨(strInterp sc, v), lookupField_mem rs _ v hv, rfl⟩
          | false =>
            rw [if_neg (by decide),
              show jsEntries (some (JVal.obj rs)) = .ok rs from rfl, ebind_ok, ebind_ok]
            refine hro _ (fun v hv => ?_)
            cases rs with
            | nil => simp at hv
            | cons e rest =>
              refine ⟨e, List.mem_cons_self _ _, ?_⟩
              simp only [List.head?] at hv
              simpa using hv

/-- The shared name/description match test never throws on a non-null
candidate. -/
theorem compMatch_ok (test : String → Bool) (n : String) (c : JVal)
    (hc : c ≠ JVal.null) : ∃ b, compMatch test n c = .ok b := by
  simp only [compMatch]
  cases h1 : test n with
  | true => exact ⟨true, by rw [if_pos rfl]⟩
  | false =>
    rw [if_neg (by decide), jsGet_eq_of_ne_null c hc, ebind_ok]
    exact ⟨_, rfl⟩

/-- One component-category scan never throws on non-null entry values. -/
theorem searchCompCat_ok (test : String → Bool) (ty : String)
    (entries : List (String × JVal)) (h : ∀ e ∈ entries, e.2 ≠ JVal.null)
    (init : List String) : ∃ out, searchCompCat test ty entries init = .ok out := by
  simp only [searchCompCat]
  refine efoldl_ok
    (fun acc nc =>
      ebind (compMatch test nc.1 nc.2) fun b =>
      Except.ok (if b then acc ++ [ty ++ "." ++ nc.1] else acc)) entries
    (fun acc nc hnc => by
      obtain ⟨b, hb⟩ := compMatch_ok test nc.1 nc.2 (h nc hnc)
      refine ⟨if b then acc ++ [ty ++ "." ++ nc.1] else acc, ?_⟩
      show (ebind (compMatch test nc.1 nc.2) fun b =>
        Except.ok (if b then acc ++ [ty ++ "." ++ nc.1] else acc)) = _
      rw [hb, ebind_ok]) init

/-- The security-scheme scan never throws on non-null entry values. -/
theorem searchSecSchemes_ok (test : String → Bool)
    (entries : List (String × JVal)) (h : ∀ e ∈ entries, e.2 ≠ JVal.null)
    (init : List String) : ∃ out, searchSecSchemes test entries init = .ok out := by
  simp only [searchSecSchemes]
  refine efoldl_ok
    (fun acc ns =>
      ebind (compMatch test ns.1 ns.2) fun b =>
      Except.ok (if b then acc ++ [ns.1] else acc)) entries
    (fun acc ns hns => by
      obtain ⟨b, hb⟩ := compMatch_ok test ns.1 ns.2 (h ns hns)
      refine ⟨if b then acc ++ [ns.1] else acc, ?_⟩
      show (ebind (compMatch test ns.1 ns.2) fun b =>
        Except.ok (if b then acc ++ [ns.1] else acc)) = _
      rw [hb, ebind_ok]) init

/-- The component loop never throws on conventional category values. -/
theorem searchAllCompCats_ok (test : String → Bool)
    (catEntries : List (String × JVal))
    (hc : ∀ tv ∈ catEntries, catValOK tv.2 = true) (init : List String) :
    ∃ out, searchAllCompCatsFrom test catEntries init = .ok out := by
  simp only [searchAllCompCatsFrom]
  refine efoldl_ok
    (fun acc tv =>
      if tv.2.truthy && jsTypeofObject tv.2 then
        ebind (jsEntries (some tv.2)) fun es =>
        searchCompCat test tv.1 es acc
      else Except.ok acc) catEntries
    (fun acc tv htv => by
      show ∃ out, (if tv.2.truthy && jsTypeofObject tv.2 then
          ebind (jsEntries (some tv.2)) fun es =>
          searchCompCat test tv.1 es acc
        else Except.ok acc) = .ok out
      have hcv := hc tv htv
      cases hg : (tv.2.truthy && jsTypeofObject tv.2 : Bool) with
      | false => exact ⟨acc, by rw [if_neg (by decide)]⟩
      | true =>
        rw [if_pos rfl]
        have h1 := (Bool.and_eq_true _ _).mp hg
        obtain ⟨t, v⟩ := tv
        cases v with
        | obj es2 =>
          rw [show jsEntries (some (JVal.obj es2)) = .ok es2 from rfl, ebind_ok]
          exact searchCompCat_ok test t es2
            (catValOK_entries (.obj es2) es2 hcv (by simp) rfl) acc
        | null => exact absurd (show JVal.null.truthy = true from h1.1) (by decide)
        | arr xs =>
          rw [show catValOK (.arr xs) = false from rfl] at hcv
          exact absurd hcv (by decide)
        | bool b =>
          rw [show jsTypeofObject (.bool b) = false from rfl] at h1
          exact absurd h1.2 (by decide)
        | num n2 =>
          rw [show jsTypeofObject (.num n2) = false from rfl] at h1
          exact absurd h1.2 (by decide)
        | str s =>
          rw [show jsTypeofObject (.str s) = false from rfl] at h1
          exact absurd h1.2 (by decide)) init

/-- The per-operation parameter scan never throws on non-null
parameter entries. -/
theorem searchParams_ok (test : String → Bool) (m p : String) (params : List JVal)
    (h : ∀ v ∈ params, v ≠ JVal.null) :
    ∃ out, searchParams test m p params = .ok out := by
  simp only [searchParams]
  refine efoldl_ok
    (fun acc param =>
      ebind (jsGet (some param) "name") fun n =>
      let descriptor := jsToStrOpt n ++ " (" ++ jsUpper m ++ " " ++ p ++ ")"
      if test (jsToStrOpt (jsOr n (some (.str "")))) then Except.ok (acc ++ [descriptor])
      else
        ebind (jsGet (some param) "description") fun d =>
        if test (jsToStrOpt (jsOr d (some (.str "")))) then Except.ok (acc ++ [descriptor])
        else Except.ok acc) params
    (fun acc param hmem => by
      show ∃ out, (ebind (jsGet (some param) "name") fun n =>
        let descriptor := jsToStrOpt n ++ " (" ++ jsUpper m ++ " " ++ p ++ ")"
        if test (jsToStrOpt (jsOr n (some (.str "")))) then Except.ok (acc ++ [descriptor])
        else
          ebind (jsGet (some param) "description") fun d =>
          if test (jsToStrOpt (jsOr d (some (.str "")))) then
            Except.ok (acc ++ [descriptor])
          else Except.ok acc) = .ok out
      rw [jsGet_eq_of_ne_null param (h param hmem), ebind_ok]
      cases h1 : test (jsToStrOpt (jsOr (jsGetOpt (some param) "name")
          (some (.str "")))) with
      | true => exact ⟨_, by rw [if_pos rfl]⟩
      | false =>
        rw [if_neg (by decide), jsGet_eq_of_ne_null param (h param hmem), ebind_ok]
        cases h2 : test (jsToStrOpt (jsOr (jsGetOpt (some param) "description")
            (some (.str "")))) with
        | true => exact ⟨_, by rw [if_pos rfl]⟩
        | false => exact ⟨_, by rw [if_neg (by decide)]⟩) []

/-- The `operation.tags.some(...)` probe never throws when any object
operation has conventional fields. -/
theorem opTagsMatch_ok (test : String → Bool) (opv : JVal)
    (hok : ∀ ofs, opv = JVal.obj ofs → opFieldsOK ofs = true) :
    ∃ b, (match jsGetOpt (some opv) "tags" with
      | some (.arr xs) => Except.ok (xs.any fun t => test (jsToStr t))
      | some v =>
        if v.truthy then Except.error "TypeError: operation.tags.some is not a function"
        else Except.ok false
      | none => Except.ok false) = .ok b := by
  cases opv with
  | obj ofs =>
    have hcl := (opFieldsOK_elim ofs (hok ofs rfl)).2.1
    rw [jsGetOpt_obj]
    cases hl : lookupField ofs "tags" with
    | none => exact ⟨false, rfl⟩
    | some v =>
      rw [hl] at hcl
      cases v with
      | arr xs => exact ⟨_, rfl⟩
      | null =>
        refine ⟨false, ?_⟩
        show (if JVal.null.truthy = true then
            (Except.error "TypeError: operation.tags.some is not a function" :
              Except String Bool)
          else .ok false) = .ok false
        rw [if_neg (by decide)]
      | bool b =>
        have hb : (JVal.bool b).truthy = false := by simpa using hcl
        refine ⟨false, ?_⟩
        show (if (JVal.bool b).truthy = true then
            (Except.error "TypeError: operation.tags.some is not a function" :
              Except String Bool)
          else .ok false) = .ok false
        rw [hb, if_neg (by decide)]
      | num n =>
        have hn : (JVal.num n).truthy = false := by simpa using hcl
        refine ⟨false, ?_⟩
        show (if (JVal.num n).truthy = true then
            (Except.error "TypeError: operation.tags.some is not a function" :
              Except String Bool)
          else .ok false) = .ok false
        rw [hn, if_neg (by decide)]
      | str s =>
        have hs : (JVal.str s).truthy = false := by simpa using hcl
        refine ⟨false, ?_⟩
        show (if (JVal.str s).truthy = true then
            (Except.error "TypeError: operation.tags.some is not a function" :
              Except String Bool)
          else .ok false) = .ok false
        rw [hs, if_neg (by decide)]
      | obj fs2 =>
        have := show (JVal.obj fs2).truthy = false by simpa using hcl
        rw [truthy_obj] at this
        exact absurd this (by decide)
  | null => exact ⟨false, rfl⟩
  | bool b => exact ⟨false, rfl⟩
  | num n => exact ⟨false, rfl⟩
  | str s => exact ⟨false, rfl⟩
  | arr xs2 =>
    rw [show jsGetOpt (some (JVal.arr xs2)) "tags" = none from by
      rw [show jsGetOpt (some (JVal.arr xs2)) "tags" =
        (parseIndex "tags").bind (fun i => xs2.get? i) from rfl,
        show (parseIndex "tags" : Option Nat) = none from by decide]
      rfl]
    exact ⟨false, rfl⟩

/-- The `operation.parameters || []` spread never throws when any object
operation has conventional fields, and the elements are non-null. -/
theorem opParamsIter_safe (opv : JVal)
    (hok : ∀ ofs, opv = JVal.obj ofs → opFieldsOK ofs = true) :
    ∃ xs, jsIter (jsOr (jsGetOpt (some opv) "parameters") (some (.arr []))) = .ok xs ∧
      ∀ v ∈ xs, v ≠ JVal.null := by
  cases opv with
  | obj ofs =>
    rw [jsGetOpt_obj]
    exact opParamsField_iter ofs (opFieldsOK_elim ofs (hok ofs rfl)).1
  | null =>
    refine ⟨[], ?_, by intro v hv; cases hv⟩
    rw [show jsGetOpt (some JVal.null) "parameters" = none from rfl, jsOr, truthyOpt_none]
    simp [jsIter]
  | bool b =>
    refine ⟨[], ?_, by intro v hv; cases hv⟩
    rw [show jsGetOpt (some (JVal.bool b)) "parameters" = none from rfl, jsOr, truthyOpt_none]
    simp [jsIter]
  | num n =>
    refine ⟨[], ?_, by intro v hv; cases hv⟩
    rw [show jsGetOpt (some (JVal.num n)) "parameters" = none from rfl, jsOr, truthyOpt_none]
    simp [jsIter]
  | str s =>
    refine ⟨[], ?_, by intro v hv; cases hv⟩
    rw [show jsGetOpt (some (JVal.str s)) "parameters" = none from rfl, jsOr, truthyOpt_none]
    simp [jsIter]
  | arr xs2 =>
    refine ⟨[], ?_, by intro v hv; cases hv⟩
    rw [show jsGetOpt (some (JVal.arr xs2)) "parameters" = none from by
      rw [show jsGetOpt (some (JVal.arr xs2)) "parameters" =
        (parseIndex "parameters").bind (fun i => xs2.get? i) from rfl,
        show (parseIndex "parameters" : Option Nat) = none from by decide]
      rfl, jsOr, truthyOpt_none]
    simp [jsIter]

/-- An operation value read off a conventional Path Item has conventional
fields whenever it is an object. -/
theorem pathItemOpFields (pi : JVal) (h : pathItemOK pi = true) (m : String) (opv : JVal)
    (hopv : jsGetOpt (some pi) m = some opv) :
    ∀ ofs, opv = JVal.obj ofs → opFieldsOK ofs = true := by
  intro ofs hofs
  cases pi with
  | obj pfs =>
    rw [jsGetOpt_obj] at hopv
    exact (pathItemEntryOK_elim (m, opv)
      ((pathItemOK_obj_elim pfs h).2 _ (lookupField_mem pfs m opv hopv))).2 ofs hofs
  | arr xs =>
    rw [show pathItemOK (.arr xs) = false from rfl] at h
    exact absurd h (by decide)
  | null => exact absurd h (by decide)
  | bool b => simp [jsGetOpt] at hopv
  | num n => simp [jsGetOpt] at hopv
  | str s => simp [jsGetOpt] at hopv

/-- The method scan of one conventional Path Item never throws. -/
theorem searchMethods_ok (test : String → Bool) (p : String) (pi : JVal)
    (h : pathItemOK pi = true) (init : List String × List String) :
    ∃ out, searchMethods test p (some pi) init = .ok out := by
  have hpin := pathItemOK_ne_null pi h
  simp only [searchMethods]
  refine efoldl_ok
    (fun acc m =>
      ebind (jsGet (some pi) m) fun operation =>
      if !truthyOpt operation then Except.ok acc
      else
        ebind (jsGet operation "summary") fun s =>
        ebind (if test (jsToStrOpt (jsOr s (some (.str "")))) then Except.ok true
          else
            ebind (jsGet operation "description") fun d =>
            if test (jsToStrOpt (jsOr d (some (.str "")))) then Except.ok true
            else
              ebind (jsGet operation "tags") fun tags =>
              match tags with
              | some (.arr xs) => Except.ok (xs.any fun t => test (jsToStr t))
              | some v =>
                if v.truthy then
                  Except.error "TypeError: operation.tags.some is not a function"
                else Except.ok false
              | none => Except.ok false) fun opMatch =>
        let opsAcc := if opMatch then acc.1 ++ [jsUpper m ++ " " ++ p] else acc.1
        ebind (jsGet operation "parameters") fun paramsF =>
        ebind (jsIter (jsOr paramsF (some (.arr [])))) fun params =>
        ebind (searchParams test m p params) fun prs =>
        Except.ok (opsAcc, acc.2 ++ prs)) methodSet
    (fun acc m hm => by
      rw [show (fun acc m =>
        ebind (jsGet (some pi) m) fun operation =>
        if !truthyOpt operation then Except.ok acc
        else
          ebind (jsGet operation "summary") fun s =>
          ebind (if test (jsToStrOpt (jsOr s (some (.str "")))) then Except.ok true
            else
              ebind (jsGet operation "description") fun d =>
              if test (jsToStrOpt (jsOr d (some (.str "")))) then Except.ok true
              else
                ebind (jsGet operation "tags") fun tags =>
                match tags with
                | some (.arr xs) => Except.ok (xs.any fun t => test (jsToStr t))
                | some v =>
                  if v.truthy then
                    Except.error "TypeError: operation.tags.some is not a function"
                  else Except.ok false
                | none => Except.ok false) fun opMatch =>
          let opsAcc := if opMatch then acc.1 ++ [jsUpper m ++ " " ++ p] else acc.1
          ebind (jsGet operation "parameters") fun paramsF =>
          ebind (jsIter (jsOr paramsF (some (.arr [])))) fun params =>
          ebind (searchParams test m p params) fun prs =>
          Except.ok (opsAcc, acc.2 ++ prs)) acc m =
        (ebind (jsGet (some pi) m) fun operation =>
        if !truthyOpt operation then Except.ok acc
        else
          ebind (jsGet operation "summary") fun s =>
          ebind (if test (jsToStrOpt (jsOr s (some (.str "")))) then Except.ok true
            else
              ebind (jsGet operation "description") fun d =>
              if test (jsToStrOpt (jsOr d (some (.str "")))) then Except.ok true
              else
                ebind (jsGet operation "tags") fun tags =>
                match tags with
                | some (.arr xs) => Except.ok (xs.any fun t => test (jsToStr t))
                | some v =>
                  if v.truthy then
                    Except.error "TypeError: operation.tags.some is not a function"
                  else Except.ok false
                | none => Except.ok false) fun opMatch =>
          let opsAcc := if opMatch then acc.1 ++ [jsUpper m ++ " " ++ p] else acc.1
          ebind (jsGet operation "parameters") fun paramsF =>
          ebind (jsIter (jsOr paramsF (some (.arr [])))) fun params =>
          ebind (searchParams test m p params) fun prs =>
          Except.ok (opsAcc, acc.2 ++ prs)) from rfl,
        jsGet_eq_of_ne_null pi hpin, ebind_ok]
      cases hop : truthyOpt (jsGetOpt (some pi) m) with
      | false => exact ⟨acc, by rw [if_pos (by decide)]⟩
      | true =>
        rw [if_neg (by decide)]
        obtain ⟨opv, hopv, hopt⟩ := truthyOpt_true_elim _ hop
        have hopn := ne_null_of_truthy opv hopt
        rw [hopv, jsGet_eq_of_ne_null opv hopn, ebind_ok]
        have hok := pathItemOpFields pi h m opv hopv
        have hb : ∃ b, (if test (jsToStrOpt (jsOr (jsGetOpt (some opv) "summary")
              (some (.str "")))) then (Except.ok true : Except String Bool)
            else
              ebind (jsGet (some opv) "description") fun d =>
              if test (jsToStrOpt (jsOr d (some (.str "")))) then Except.ok true
              else
                ebind (jsGet (some opv) "tags") fun tags =>
                match tags with
                | some (.arr xs) => Except.ok (xs.any fun t => test (jsToStr t))
                | some v =>
                  if v.truthy then
                    Except.error "TypeError: operation.tags.some is not a function"
                  else Except.ok false
                | none => Except.ok false) = .ok b := by
          cases h1 : test (jsToStrOpt (jsOr (jsGetOpt (some opv) "summary")
              (some (.str "")))) with
          | true => exact ⟨true, by rw [if_pos rfl]⟩
          | false =>
            rw [if_neg (by decide), jsGet_eq_of_ne_null opv hopn, ebind_ok]
            cases h2 : test (jsToStrOpt (jsOr (jsGetOpt (some opv) "description")
                (some (.str "")))) with
            | true => exact ⟨true, by rw [if_pos rfl]⟩
            | false =>
              rw [if_neg (by decide), jsGet_eq_of_ne_null opv hopn, ebind_ok]
              exact opTagsMatch_ok test opv hok
        obtain ⟨b, hbd⟩ := hb
        rw [hbd, ebind_ok, jsGet_eq_of_ne_null opv hopn, ebind_ok]
        obtain ⟨xs, hxs, hxn⟩ := opParamsIter_safe opv hok
        rw [hxs, ebind_ok]
        obtain ⟨prs, hprs⟩ := searchParams_ok test m p xs hxn
        rw [hprs, ebind_ok]
        exact ⟨_, rfl⟩) init

set_option maxHeartbeats 1000000 in
/-- The path loop of the search never throws over keys of a conventional
`paths` object. -/
theorem searchPathsScan_ok (test : String → Bool) (ps : List (String × JVal))
    (hps : ∀ kv ∈ ps, pathItemOK kv.2 = true) (pathKeys : List String)
    (hks : ∀ k ∈ pathKeys, k ∈ ps.map Prod.fst) :
    ∃ out, searchPathsScan test (some (.obj ps)) pathKeys = .ok out := by
  simp only [searchPathsScan]
  refine efoldl_ok
    (fun acc p =>
      let pacc := if test p then acc.1 ++ [p] else acc.1
      ebind (jsGet (some (.obj ps)) p) fun pathItem =>
      ebind (searchMethods test p pathItem (acc.2.1, acc.2.2)) fun ms =>
      Except.ok (pacc, ms.1, ms.2)) pathKeys
    (fun acc pk hpk => by
      show ∃ out, (let pacc := if test pk then acc.1 ++ [pk] else acc.1
        ebind (jsGet (some (.obj ps)) pk) fun pathItem =>
        ebind (searchMethods test pk pathItem (acc.2.1, acc.2.2)) fun ms =>
        Except.ok (pacc, ms.1, ms.2)) = .ok out
      obtain ⟨pi, hpi⟩ := mem_keys_lookup ps pk (hks pk hpk)
      rw [jsGet_eq_of_ne_null (.obj ps) (by simp) pk, ebind_ok, jsGetOpt_obj, hpi]
      obtain ⟨ms, hms⟩ := searchMethods_ok test pk pi
        (hps _ (lookupField_mem ps pk pi hpi)) (acc.2.1, acc.2.2)
      rw [hms, ebind_ok]
      exact ⟨_, rfl⟩) ([], [], [])

/-- A truthy conventional `paths` value is an object of conventional Path
Items. -/
theorem pathsOK_truthy_obj (v : JVal) (h : pathsOK v = true) (ht : v.truthy = true) :
    ∃ ps, v = JVal.obj ps ∧ ∀ kv ∈ ps, pathItemOK kv.2 = true := by
  cases v with
  | obj ps =>
    exact ⟨ps, rfl, List.all_eq_true.mp
      (show ps.all (fun p => pathItemOK p.2) = true from h)⟩
  | null => exact absurd ht (by decide)
  | arr xs =>
    rw [show pathsOK (.arr xs) = !(JVal.arr xs).truthy from rfl, ht] at h
    exact absurd h (by decide)
  | bool b =>
    rw [show pathsOK (.bool b) = !(JVal.bool b).truthy from rfl, ht] at h
    exact absurd h (by decide)
  | num n =>
    rw [show pathsOK (.num n) = !(JVal.num n).truthy from rfl, ht] at h
    exact absurd h (by decide)
  | str s =>
    rw [show pathsOK (.str s) = !(JVal.str s).truthy from rfl, ht] at h
    exact absurd h (by decide)

/-- A truthy conventional `components` value is an object of conventional
categories. -/
theorem componentsOK_truthy_obj (v : JVal) (h : componentsOK v = true)
    (ht : v.truthy = true) :
    ∃ cats, v = JVal.obj cats ∧ ∀ c ∈ cats, catValOK c.2 = true := by
  cases v with
  | obj cats =>
    exact ⟨cats, rfl, List.all_eq_true.mp
      (show cats.all (fun c => catValOK c.2) = true from h)⟩
  | null => exact absurd ht (by decide)
  | arr xs =>
    rw [show componentsOK (.arr xs) = !(JVal.arr xs).truthy from rfl, ht] at h
    exact absurd h (by decide)
  | bool b =>
    rw [show componentsOK (.bool b) = !(JVal.bool b).truthy from rfl, ht] at h
    exact absurd h (by decide)
  | num n =>
    rw [show componentsOK (.num n) = !(JVal.num n).truthy from rfl, ht] at h
    exact absurd h (by decide)
  | str s =>
    rw [show componentsOK (.str s) = !(JVal.str s).truthy from rfl, ht] at h
    exact absurd h (by decide)

/-- All five search categories are computed without a throw on a
conventional document. -/
theorem searchCategories_ok (test : String → Bool) (doc : JVal)
    (h : docOK doc = true) : ∃ cats, searchCategories test doc = .ok cats := by
  have hd := docOK_ne_null doc h
  obtain ⟨kv, hkv, hkvn⟩ := jsOr_default_ne_null (jsGetOpt (some doc) "paths") []
  obtain ⟨pathKeys, hpk⟩ := jsKeys_ok_of_ne_null kv hkvn
  have hscan : ∃ pop, searchPathsScan test (jsGetOpt (some doc) "paths") pathKeys
      = .ok pop := by
    cases hpt : truthyOpt (jsGetOpt (some doc) "paths") with
    | false =>
      have hkv2 : kv = JVal.obj [] := by
        rw [jsOr, hpt, if_neg (by decide)] at hkv
        exact ((Option.some.injEq _ _).mp hkv).symm
      have hkeys : pathKeys = [] := by
        rw [hkv2] at hpk
        exact (Except.ok.injEq _ _).mp (hpk.symm.trans
          (show jsKeys (some (JVal.obj [])) = Except.ok ([] : List String) from rfl))
      rw [hkeys]
      exact ⟨([], [], []), rfl⟩
    | true =>
      obtain ⟨pv, hpv, hpvt⟩ := truthyOpt_true_elim _ hpt
      obtain ⟨ps, hpso, hpall⟩ := pathsOK_truthy_obj pv (docOK_paths doc h pv hpv) hpvt
      subst hpso
      have hkv2 : kv = JVal.obj ps := by
        rw [jsOr, hpt, if_pos rfl, hpv] at hkv
        exact ((Option.some.injEq _ _).mp hkv).symm
      have hkeys : pathKeys = ps.map Prod.fst := by
        rw [hkv2] at hpk
        exact (Except.ok.injEq _ _).mp (hpk.symm.trans
          (show jsKeys (some (JVal.obj ps)) = Except.ok (ps.map Prod.fst) from rfl))
      rw [hpv, hkeys]
      exact searchPathsScan_ok test ps hpall (ps.map Prod.fst) (fun k hk => hk)
  obtain ⟨pop, hpop⟩ := hscan
  obtain ⟨cvv, hcvv, hcvn⟩ := jsOr_default_ne_null (jsGetOpt (some doc) "components") []
  obtain ⟨catEntries, hce⟩ := jsEntries_ok_of_ne_null cvv hcvn
  have hcats : ∀ tv ∈ catEntries, catValOK tv.2 = true := by
    cases hct : truthyOpt (jsGetOpt (some doc) "components") with
    | false =>
      have hcvv2 : cvv = JVal.obj [] := by
        rw [jsOr, hct, if_neg (by decide)] at hcvv
        exact ((Option.some.injEq _ _).mp hcvv).symm
      have hee : catEntries = [] := by
        rw [hcvv2] at hce
        exact (Except.ok.injEq _ _).mp (hce.symm.trans
          (show jsEntries (some (JVal.obj [])) = Except.ok ([] : List (String × JVal))
            from rfl))
      rw [hee]
      intro tv htv
      cases htv
    | true =>
      obtain ⟨cv0, hcv0, hcv0t⟩ := truthyOpt_true_elim _ hct
      obtain ⟨cats, hcatso, hcall⟩ :=
        componentsOK_truthy_obj cv0 (docOK_components doc h cv0 hcv0) hcv0t
      subst hcatso
      have hcvv2 : cvv = JVal.obj cats := by
        rw [jsOr, hct, if_pos rfl, hcv0] at hcvv
        exact ((Option.some.injEq _ _).mp hcvv).symm
      have hee : catEntries = cats := by
        rw [hcvv2] at hce
        exact (Except.ok.injEq _ _).mp (hce.symm.trans
          (show jsEntries (some (JVal.obj cats)) = Except.ok cats from rfl))
      rw [hee]
      exact hcall
  obtain ⟨comps, hcomps⟩ := searchAllCompCats_ok test catEntries hcats []
  have hcok : componentsOK cvv = true := by
    cases hct : truthyOpt (jsGetOpt (some doc) "components") with
    | false =>
      have hcvv2 : cvv = JVal.obj [] := by
        rw [jsOr, hct, if_neg (by decide)] at hcvv
        exact ((Option.some.injEq _ _).mp hcvv).symm
      rw [hcvv2]
      rfl
    | true =>
      obtain ⟨cv0, hcv0, _⟩ := truthyOpt_true_elim _ hct
      have hcvv2 : cvv = cv0 := by
        rw [jsOr, hct, if_pos rfl, hcv0] at hcvv
        exact ((Option.some.injEq _ _).mp hcvv).symm
      rw [hcvv2]
      exact docOK_components doc h cv0 hcv0
  obtain ⟨ssv, hssv, hssvn⟩ := jsOr_default_ne_null (jsGetOpt (some cvv) "securitySchemes") []
  obtain ⟨ssEntries, hsse⟩ := jsEntries_ok_of_ne_null ssv hssvn
  have hssn : ∀ e ∈ ssEntries, e.2 ≠ JVal.null := by
    cases hsst : truthyOpt (jsGetOpt (some cvv) "securitySchemes") with
    | false =>
      have h1 : ssv = JVal.obj [] := by
        rw [jsOr, hsst, if_neg (by decide)] at hssv
        exact ((Option.some.injEq _ _).mp hssv).symm
      have h2 : ssEntries = [] := by
        rw [h1] at hsse
        exact (Except.ok.injEq _ _).mp (hsse.symm.trans
          (show jsEntries (some (JVal.obj [])) = Except.ok ([] : List (String × JVal))
            from rfl))
      rw [h2]
      intro e he
      cases he
    | true =>
      obtain ⟨sv, hsv, hsvt⟩ := truthyOpt_true_elim _ hsst
      have h1 : ssv = sv := by
        rw [jsOr, hsst, if_pos rfl, hsv] at hssv
        exact ((Option.some.injEq _ _).mp hssv).symm
      have hsvOK : catValOK sv = true := componentsOK_cat cvv hcok "securitySchemes" sv hsv
      exact catValOK_entries sv ssEntries hsvOK (ne_null_of_truthy sv hsvt) (h1 ▸ hsse)
  obtain ⟨ss, hss⟩ := searchSecSchemes_ok test ssEntries hssn []
  refine ⟨(pop.1, pop.2.1, comps, pop.2.2, ss), ?_⟩
  simp only [searchCategories, jsGet_eq_of_ne_null doc hd, ebind_ok]
  rw [hkv, hpk, ebind_ok, hpop, ebind_ok, hcvv, hce, ebind_ok, hcomps, ebind_ok,
    jsGet_eq_of_ne_null cvv hcvn, ebind_ok, hssv, hsse, ebind_ok, hss, ebind_ok]

/-- The search engine never throws on a conventional document. -/
theorem searchSchema_total (test : String → Bool) (pattern : String) (doc : JVal)
    (h : docOK doc = true) : ∃ r, searchSchema test pattern doc = .ok r := by
  obtain ⟨cats, hcats⟩ := searchCategories_ok test doc h
  refine ⟨assembleSearch pattern cats, ?_⟩
  simp only [searchSchema]
  rw [hcats, ebind_ok]

/-- A small conventional OpenAPI document used as the totality witness
input. -/
def c2doc : JVal := .obj
  [("openapi", .str "3.0.0"),
   ("paths", .obj [("/pets", .obj
     [("get", .obj [("summary", .str "List pets"),
        ("responses", .obj [("200", .obj [("description", .str "ok")])])])])]),
   ("components", .obj [("schemas", .obj [("Pet", .obj [("type", .str "object")])])])]

/-- C2: all ten tools are total on conventional documents, not on
arbitrary value trees.  On every document whose present conventional
fields have their conventional shapes — absent fields are fine and are
treated as empty mappings/sequences, but no `null` (or otherwise
misshapen value) may sit where the code reads properties, e.g. at a Path
Item method key or a component value — every extractor and the search
engine complete without an unhandled error, for all tool arguments. -/
theorem extractors_total_on_conventional_docs (doc : JVal) (hdoc : docOK doc = true)
    (p m sc : String) (pp : String) (pm : Option String) (ct cn : String)
    (ty : ExampleType) (ep em esc ect ecn : Option String)
    (test : String → Bool) (pattern : String) :
    (∃ r, listEndpoints doc = .ok r) ∧
    (∃ r, getEndpoint doc p m = .ok r) ∧
    (∃ r, getRequestBody doc p m = .ok r) ∧
    (∃ r, getResponseSchema doc p m sc = .ok r) ∧
    (∃ r, getPathParameters doc pp pm = .ok r) ∧
    (∃ r, listComponents doc = .ok r) ∧
    (∃ r, getComponent doc ct cn = .ok r) ∧
    (∃ r, listSecuritySchemes doc = .ok r) ∧
    (∃ r, getExamples doc ty ep em esc ect ecn = .ok r) ∧
    (∃ r, searchSchema test pattern doc = .ok r) := by
  have hd := docOK_ne_null doc hdoc
  exact ⟨listEndpoints_total doc hdoc, getEndpoint_total doc hd p m,
    getRequestBody_total doc hd p m, getResponseSchema_total doc hd p m sc,
    getPathParameters_total doc hdoc pp pm, listComponents_total doc hd,
    getComponent_total doc hd ct cn, listSecuritySchemes_total doc hdoc,
    getExamples_total doc hdoc ty ep em esc ect ecn,
    searchSchema_total test pattern doc hdoc⟩

/-- Witness: the conventional document `c2doc` satisfies the
well-formedness hypothesis, and every tool completes on it at concrete
arguments. -/
theorem extractors_total_on_conventional_docs_witness :
    docOK c2doc = true ∧
    ((∃ r, listEndpoints c2doc = .ok r) ∧
     (∃ r, getEndpoint c2doc "/pets" "get" = .ok r) ∧
     (∃ r, getRequestBody c2doc "/pets" "get" = .ok r) ∧
     (∃ r, getResponseSchema c2doc "/pets" "get" "200" = .ok r) ∧
     (∃ r, getPathParameters c2doc "/pets" (some "get") = .ok r) ∧
     (∃ r, listComponents c2doc = .ok r) ∧
     (∃ r, getComponent c2doc "schemas" "Pet" = .ok r) ∧
     (∃ r, listSecuritySchemes c2doc = .ok r) ∧
     (∃ r, getExamples c2doc .response (some "/pets") (some "get") none none none = .ok r) ∧
     (∃ r, searchSchema (fun s => s == "pets") "pets" c2doc = .ok r)) :=
  ⟨by decide, extractors_total_on_conventional_docs c2doc (by decide)
    "/pets" "get" "200" "/pets" (some "get") "schemas" "Pet" .response
    (some "/pets") (some "get") none none none (fun s => s == "pets") "pets"⟩
